import Mathlib

/-!
Verification of the data-profiling / data-cleaning core of the AI4business
repository (files `src/data_profiler.py`, `src/data_cleaner.py`).

The embedding is a shallow one: pandas cells become the inductive `Value`
(a null marker, an exact rational for numeric cells, a character list for
text cells), a pandas Series becomes a `Column` carrying its storage dtype,
and a DataFrame becomes a `Table` (an ordered association list of named
columns).  Floating-point numbers are modelled by exact rationals; `NaN`
cells are modelled by `Value.null` (which is how pandas itself treats them
in `isnull`/`dropna`/`fillna`).  Sample standard deviation, whose value is
irrational, is stored as its square (the sample variance); no claim below
inspects it.
-/

set_option autoImplicit false

namespace AIB

/-- Strings of the source are modelled as lists of characters. -/
abbrev Str := List Char

/-- ASCII lower-casing of a character (`str.lower` acts per character;
only ASCII letters occur in the repository's string constants). -/
def lowerChar (c : Char) : Char :=
  match c with
  | 'A' => 'a' | 'B' => 'b' | 'C' => 'c' | 'D' => 'd' | 'E' => 'e' | 'F' => 'f'
  | 'G' => 'g' | 'H' => 'h' | 'I' => 'i' | 'J' => 'j' | 'K' => 'k' | 'L' => 'l'
  | 'M' => 'm' | 'N' => 'n' | 'O' => 'o' | 'P' => 'p' | 'Q' => 'q' | 'R' => 'r'
  | 'S' => 's' | 'T' => 't' | 'U' => 'u' | 'V' => 'v' | 'W' => 'w' | 'X' => 'x'
  | 'Y' => 'y' | 'Z' => 'z' | c => c

/-- ASCII upper-casing of a character. -/
def upperChar (c : Char) : Char :=
  match c with
  | 'a' => 'A' | 'b' => 'B' | 'c' => 'C' | 'd' => 'D' | 'e' => 'E' | 'f' => 'F'
  | 'g' => 'G' | 'h' => 'H' | 'i' => 'I' | 'j' => 'J' | 'k' => 'K' | 'l' => 'L'
  | 'm' => 'M' | 'n' => 'N' | 'o' => 'O' | 'p' => 'P' | 'q' => 'Q' | 'r' => 'R'
  | 's' => 'S' | 't' => 'T' | 'u' => 'U' | 'v' => 'V' | 'w' => 'W' | 'x' => 'X'
  | 'y' => 'Y' | 'z' => 'Z' | c => c

/-- `str.lower` on a whole string. -/
def lowerStr (s : Str) : Str := s.map lowerChar

/-- Characters stripped by Python's `str.strip()` (whitespace). -/
def isWs (c : Char) : Bool := c.isWhitespace

/-- Left part of `str.strip()`: drop leading whitespace. -/
def stripLeft (s : Str) : Str := s.dropWhile isWs

/-- Python `str.strip()`: remove leading and trailing whitespace. -/
def pyStrip (s : Str) : Str := ((stripLeft s).reverse.dropWhile isWs).reverse

/-- One step of Python `str.title()`: a letter that follows a letter is
lower-cased, a letter that starts a run is upper-cased, other characters
pass through.  `prev` records whether the previous character was a letter. -/
def pyTitleAux (prev : Bool) : Str → Str
  | [] => []
  | c :: cs =>
      (if c.isAlpha then (if prev then lowerChar c else upperChar c) else c)
        :: pyTitleAux c.isAlpha cs

/-- Python `str.title()`. -/
def pyTitle (s : Str) : Str := pyTitleAux false s

/-- Digit character for a value `d < 10`. -/
def digitCh (d : ℕ) : Char :=
  match d with
  | 0 => '0' | 1 => '1' | 2 => '2' | 3 => '3' | 4 => '4'
  | 5 => '5' | 6 => '6' | 7 => '7' | 8 => '8' | _ => '9'

/-- Fuel-driven digit expansion (structural recursion, so that the
definition evaluates inside the kernel; the fuel is always sufficient at
the call site below). -/
def natDigitsGo : ℕ → ℕ → Str
  | 0, _ => []
  | fuel + 1, m =>
      if m < 10 then [digitCh m]
      else natDigitsGo fuel (m / 10) ++ [digitCh (m % 10)]

/-- Decimal digits of a natural number, most significant first. -/
def natDigits (n : ℕ) : Str := natDigitsGo (n + 1) n

/-- Rendering of an integer, as Python renders an `int`. -/
def renderInt (z : ℤ) : Str :=
  if z < 0 then '-' :: natDigits z.natAbs else natDigits z.natAbs

/-- Round half to even (Python's rounding mode for `round` and number
formatting), to an integer. -/
def roundHalfEven (q : ℚ) : ℤ :=
  let f : ℤ := ⌊q⌋
  let r : ℚ := q - f
  if r < 1/2 then f
  else if 1/2 < r then f + 1
  else if f % 2 = 0 then f else f + 1

/-- Python `round(x, d)` on exact rationals. -/
def pyRound (d : ℕ) (q : ℚ) : ℚ :=
  (roundHalfEven (q * (10 : ℚ) ^ d) : ℚ) / (10 : ℚ) ^ d

/-- Fixed-point number formatting, as in the source's `f"{x:.2f}"` /
`f"{x:.1f}"` (sign, integer part, exactly `d` decimals). -/
def renderFixed (d : ℕ) (q : ℚ) : Str :=
  let m : ℤ := roundHalfEven (|q| * (10 : ℚ) ^ d)
  let ip : ℕ := m.natAbs / 10 ^ d
  let fp : ℕ := m.natAbs % 10 ^ d
  let fpd : Str := natDigits fp
  let fpad : Str := List.replicate (d - fpd.length) '0' ++ fpd
  (if q < 0 ∧ m ≠ 0 then ['-'] else []) ++ natDigits ip ++
    (if d = 0 then [] else '.' :: fpad)

/-- Rendering of a two-decimal rounded float as Python's `str` prints it
(`12.0`, `12.5`, `12.34`): the integer part, a dot, one or two decimals
with the trailing zero of the hundredths dropped. -/
def renderFloat2 (q : ℚ) : Str :=
  let m : ℤ := roundHalfEven (|q| * 100)
  let ip : ℕ := m.natAbs / 100
  let f2 : ℕ := m.natAbs % 100
  let frac : Str :=
    if f2 = 0 then ['0']
    else if f2 % 10 = 0 then natDigits (f2 / 10)
    else if f2 < 10 then '0' :: natDigits f2
    else natDigits f2
  (if q < 0 ∧ m ≠ 0 then ['-'] else []) ++ natDigits ip ++ '.' :: frac

/-- A cell of a table: the null marker (`None` / `NaN`), an exact rational
standing for a Python number, or a piece of text. -/
inductive Value where
  | null : Value
  | num : ℚ → Value
  | vstr : Str → Value
  deriving DecidableEq, Repr

/-- Storage dtype of a pandas column.  The 32-bit numeric kinds of the
source's dtype list behave identically to the 64-bit ones and are collapsed
into them. -/
inductive Dtype where
  | int64 : Dtype
  | float64 : Dtype
  | object : Dtype
  deriving DecidableEq, Repr

/-- Whether a dtype is one of the source's native numeric storage kinds
(`int64`, `float64`, `int32`, `float32`). -/
def Dtype.isNativeNumeric : Dtype → Bool
  | .int64 => true
  | .float64 => true
  | .object => false

/-- `str(series.dtype)`. -/
def Dtype.render : Dtype → Str
  | .int64 => "int64".data
  | .float64 => "float64".data
  | .object => "object".data

/-- A pandas Series: its storage dtype and its cells in row order. -/
structure Column where
  dtype : Dtype
  values : List Value
  deriving DecidableEq, Repr

/-- A DataFrame: an ordered association list of named columns. -/
abbrev Table := List (Str × Column)

/-- `str(v)` / `astype(str)` on one cell: `NaN` prints as `nan`; numbers
print via their decimal rendering (`.0` added for whole floats would depend
on int/float which `Value.num` does not track; the claims below never
depend on the rendering of numeric cells). -/
def toStrV (v : Value) : Str :=
  match v with
  | .null => "nan".data
  | .num q => if q.den = 1 then renderInt q.num else renderFixed 2 q
  | .vstr s => s

/-- Number of digits consumed from the front of a string. -/
def takeDigits (s : Str) : Str × Str :=
  match s with
  | [] => ([], [])
  | c :: cs =>
      if c.isDigit then
        let (d, r) := takeDigits cs
        (c :: d, r)
      else ([], c :: cs)

/-- Numeric value of a digit character. -/
def digitVal (c : Char) : ℕ := c.toNat - '0'.toNat

/-- Natural number denoted by a digit string. -/
def natOfDigits (s : Str) : ℕ := s.foldl (fun a c => a * 10 + digitVal c) 0

/-- `pd.to_numeric(·, errors="coerce")` on one text cell, modelled for
plain decimal literals (optional sign, digits, optional fractional part;
surrounding whitespace tolerated).  Exponent forms, `inf` and `nan`
literals are not modelled; the unparsable ones among them coerce to null
exactly as every other unparsable string does. -/
def parseRat (s0 : Str) : Option ℚ :=
  let s := pyStrip s0
  let (neg, s1) : Bool × Str :=
    match s with
    | '-' :: r => (true, r)
    | '+' :: r => (false, r)
    | _ => (false, s)
  let (ip, r1) := takeDigits s1
  match r1 with
  | [] =>
      if ip = [] then none
      else some ((if neg then -1 else 1) * (natOfDigits ip : ℚ))
  | '.' :: r2 =>
      let (fp, r3) := takeDigits r2
      if r3 = [] ∧ ¬(ip = [] ∧ fp = []) then
        some ((if neg then -1 else 1) *
          ((natOfDigits ip : ℚ) + (natOfDigits fp : ℚ) / (10 : ℚ) ^ fp.length))
      else none
  | _ => none

/-- `pd.to_numeric(·, errors="coerce")` on one cell. -/
def toNumOpt (v : Value) : Option ℚ :=
  match v with
  | .null => none
  | .num q => some q
  | .vstr s => parseRat s

/-- A coerced cell: the numeric value, or null when coercion fails. -/
def coerceValue (v : Value) : Value :=
  match toNumOpt v with
  | some q => .num q
  | none => .null

/-- Insertion into a sorted list of rationals. -/
def insSorted (x : ℚ) (l : List ℚ) : List ℚ :=
  match l with
  | [] => [x]
  | y :: ys => if x ≤ y then x :: y :: ys else y :: insSorted x ys

/-- Insertion sort on rationals (the sort underlying pandas quantiles). -/
def sortQ (l : List ℚ) : List ℚ := l.foldr insSorted []

/-- Pandas `Series.quantile(p)` with linear interpolation on the sorted
non-null values: position `p·(n−1)`, interpolating between the two
neighbouring order statistics.  `none` on an empty list (pandas yields
`NaN` there). -/
def quantileQ (l : List ℚ) (p : ℚ) : Option ℚ :=
  match l with
  | [] => none
  | _ =>
      let s := sortQ l
      let n := s.length
      let h : ℚ := p * ((n : ℚ) - 1)
      let i : ℕ := (⌊h⌋).toNat
      let lo := s.getD i 0
      let hi := s.getD (i + 1) lo
      some (lo + (h - (i : ℚ)) * (hi - lo))

/-- Pandas `Series.mean()` over the parseable values (`none` when empty,
where pandas yields `NaN`). -/
def meanQ (l : List ℚ) : Option ℚ :=
  match l with
  | [] => none
  | _ => some (l.sum / (l.length : ℚ))

/-- Pandas `Series.median()` (the `0.5` quantile, `NaN`/`none` on empty). -/
def medianQ (l : List ℚ) : Option ℚ := quantileQ l (1/2)

/-- Fuel-driven keep-first de-duplication (structural recursion for kernel
evaluation; the fuel is always sufficient at the call site below since
filtering never lengthens a list). -/
def dedupGo {α : Type} [DecidableEq α] : ℕ → List α → List α
  | 0, _ => []
  | _, [] => []
  | fuel + 1, x :: xs => x :: dedupGo fuel (xs.filter (fun y => y ≠ x))

/-- Keep-first-occurrence de-duplication (the semantics of pandas
`drop_duplicates` / `unique`). -/
def dedupKeepFirst {α : Type} [DecidableEq α] (l : List α) : List α :=
  dedupGo l.length l

/-! ## Table primitives -/

/-- A single-quote character (used by the source's log messages). -/
def sq : Char := Char.ofNat 39

/-- `col in df.columns`. -/
def colMem (df : Table) (c : Str) : Bool := df.any (fun e => e.1 = c)

/-- `df[col]` when present. -/
def getCol (df : Table) (c : Str) : Option Column :=
  (df.find? (fun e => decide (e.1 = c))).map (fun e => e.2)

/-- `df[col] = series`: replace the named column's contents. -/
def setCol (df : Table) (c : Str) (col : Column) : Table :=
  df.map (fun e => if e.1 = c then (e.1, col) else e)

/-- `df.drop(columns=[col])`. -/
def dropCol (df : Table) (c : Str) : Table :=
  df.filter (fun e => decide (e.1 ≠ c))

/-- `len(df)`: the row count (the length of the first column;
all columns of a well-formed frame agree). -/
def nRows (df : Table) : ℕ :=
  match df with
  | [] => 0
  | e :: _ => e.2.values.length

/-- The tuple of values of row `i` across all columns. -/
def rowAt (df : Table) (i : ℕ) : List Value :=
  df.map (fun e => e.2.values.getD i .null)

/-- Restrict every column of the frame to the rows whose indices are
listed in `keep` (in that order); dtypes are unchanged. -/
def selectRows (df : Table) (keep : List ℕ) : Table :=
  df.map (fun e =>
    (e.1, { dtype := e.2.dtype,
            values := keep.map (fun i => e.2.values.getD i .null) }))

/-- Indices kept by `df.drop_duplicates()`: a row survives when no
earlier row is identical across all columns. -/
def dedupRowIdx (df : Table) : List ℕ :=
  (List.range (nRows df)).filter
    (fun i => (List.range i).all (fun j => decide (rowAt df j ≠ rowAt df i)))

/-- `df.drop_duplicates()` (keep the first occurrence of each row). -/
def dropDuplicates (df : Table) : Table := selectRows df (dedupRowIdx df)

/-- Count of null cells of a column (`series.isnull().sum()`). -/
def nullCount (col : Column) : ℕ :=
  (col.values.filter (fun v => decide (v = .null))).length

/-- The parseable numeric values of a column, in row order
(`pd.to_numeric(series, errors="coerce").dropna()`). -/
def parseables (col : Column) : List ℚ := col.values.filterMap toNumOpt

/-- `series.fillna(v)`. -/
def fillList (vs : List Value) (fill : Value) : List Value :=
  vs.map (fun v => if v = .null then fill else v)

/-- Dtype of a column after `fillna`: an object column stays object; a
native numeric column stays numeric when the fill value is a number and
degrades to object when it is text. -/
def fillDtype (d : Dtype) (fill : Value) : Dtype :=
  match d, fill with
  | .object, _ => .object
  | d, .num _ => d
  | _, .null => d
  | _, .vstr _ => .object

/-! ## Cleaning Executor (`data_cleaner.apply_cleaning_actions`) -/

/-- One entry of the action list handed to the executor, mirroring the
action dictionaries of the source (`action`, `column`, `method`,
`description`, `impact`, `auto`); absent keys are `none`/defaults. -/
structure CleaningAction where
  act : Str
  column : Option Str := none
  method : Option Str := none
  description : Str := []
  impact : Str := []
  auto : Bool := false
  deriving DecidableEq, Repr

/-- `action.get("method", "median")`. -/
def CleaningAction.methodStr (a : CleaningAction) : Str :=
  a.method.getD "median".data

/-- Rendering of a fill value inside a log message (floats with a finite
decimal expansion print exactly; others fall back to a fraction — the
source prints the shortest float repr, a difference no claim observes). -/
def renderValueLog (v : Value) : Str :=
  match v with
  | .null => "nan".data
  | .vstr s => s
  | .num q =>
      if q.den = 1 then renderInt q.num
      else if (100000000 : ℤ) % (q.den : ℤ) = 0 then renderFixed 8 q
      else renderInt q.num ++ '/' :: natDigits q.den

/-- Lexicographic comparison of strings (by character code). -/
def strLe : Str → Str → Bool
  | [], _ => true
  | _ :: _, [] => false
  | a :: as, b :: bs => if a = b then strLe as bs else decide (a.toNat < b.toNat)

/-- A total comparison on cell values (numbers before text, numbers by
magnitude, text lexicographically), standing in for Python's sort order
in `Series.mode()` whose result is sorted. -/
def valueLe : Value → Value → Bool
  | .null, _ => true
  | _, .null => false
  | .num a, .num b => decide (a ≤ b)
  | .num _, .vstr _ => true
  | .vstr _, .num _ => false
  | .vstr a, .vstr b => strLe a b

/-- `mode_val.iloc[0] if len(mode_val) > 0 else "Unknown"`: the least of
the most frequent values (`Series.mode()` returns them sorted), or the
string `"Unknown"` when the column has no values at all. -/
def pickFirstMode (best : List Value) : Value :=
  match best with
  | [] => .vstr "Unknown".data
  | b :: bs => bs.foldl (fun acc v => if valueLe v acc then v else acc) b

/-- The `impute_missing` branch of the executor, acting on the column
`col` of `df` (the column is known to be present).  Returns the updated
frame and the log line, mirroring source lines 32–52. -/
def imputeMissing (df : Table) (c : Str) (col : Column) (method : Str) :
    Table × List Str :=
  let nc := nullCount col
  if nc = 0 then (df, [])
  else
    let logLine : Value → List Str := fun fillv =>
      [natDigits nc ++ " missing values in ".data ++ sq :: c ++ sq ::
        " with ".data ++ method ++ " (".data ++ renderValueLog fillv ++ [')']]
    if method = "median".data ∨ method = "mean".data then
      let ns := parseables col
      let fillq : Option ℚ :=
        if method = "median".data then medianQ ns else meanQ ns
      let fillv : Value := match fillq with | some q => .num q | none => .null
      let newVals := fillList (col.values.map coerceValue) fillv
      let df1 := setCol df c { dtype := .float64, values := newVals }
      (df1, logLine fillv)
    else if method = "mode".data then
      -- `df[col].mode()` sorts the most frequent values; `.iloc[0]` takes
      -- the least of them, `"Unknown"` when the column has no values.
      let nn := col.values.filter (fun v => decide (v ≠ .null))
      let cnt : Value → ℕ := fun v => (nn.filter (fun w => decide (w = v))).length
      let cands := dedupKeepFirst nn
      let maxCnt := (cands.map cnt).foldr max 0
      let best := cands.filter (fun v => decide (cnt v = maxCnt))
      let fillv : Value := pickFirstMode best
      let df1 := setCol df c
        { dtype := fillDtype col.dtype fillv, values := fillList col.values fillv }
      (df1, logLine fillv)
    else if method = "drop".data then
      let keep := (List.range (nRows df)).filter
        (fun i => decide (col.values.getD i .null ≠ .null))
      let df1 := selectRows df keep
      (df1, [natDigits nc ++ " missing values in ".data ++ sq :: c ++ sq ::
        " with ".data ++ method ++ " (N/A (rows dropped))".data])
    else
      -- any other method string is a literal fill value
      let fillv : Value := .vstr method
      let df1 := setCol df c
        { dtype := fillDtype col.dtype fillv, values := fillList col.values fillv }
      (df1, logLine fillv)

/-- The `clip_outliers` branch: recompute Q1/Q3/IQR from the current
column state, clip the coerced values into `[Q1 − 1.5·IQR, Q3 + 1.5·IQR]`
and overwrite the column (source lines 54–62). -/
def clipOutliers (df : Table) (c : Str) (col : Column) : Table × List Str :=
  let coerced := col.values.map coerceValue
  let ns := parseables col
  match quantileQ ns (1/4), quantileQ ns (3/4) with
  | some q1, some q3 =>
      let iqr := q3 - q1
      let lower := q1 - 3/2 * iqr
      let upper := q3 + 3/2 * iqr
      let clipv : Value → Value := fun v =>
        match v with
        | .num q => .num (max lower (min upper q))
        | v => v
      let newVals := coerced.map clipv
      -- `(numeric_col != clipped).sum()`: a NaN cell compares unequal to
      -- itself in pandas, so nulls are counted as changed.
      let changed := (coerced.zip newVals).countP
        (fun p => match p.1 with
          | .num q => decide (Value.num q ≠ p.2)
          | _ => true)
      (setCol df c { dtype := .float64, values := newVals },
        ["Clipped ".data ++ natDigits changed ++ " outlier values in ".data ++
          sq :: c ++ sq :: " to [".data ++ renderFixed 2 lower ++ ", ".data ++
          renderFixed 2 upper ++ [']']])
  | _, _ =>
      -- no parseable value: the quantiles are NaN, clipping with NaN
      -- bounds changes nothing, but the assignment still coerces the column
      (setCol df c { dtype := .float64, values := coerced },
        ["Clipped 0 outlier values in ".data ++ sq :: c ++ sq ::
          " to [nan, nan]".data])

/-- One pass of the executor's loop body for a single action
(source lines 12–70); unknown action types fall through unchanged. -/
def applyAction (df : Table) (a : CleaningAction) : Table × List Str :=
  if a.act = "remove_duplicates".data then
    let df1 := dropDuplicates df
    (df1, ["Removed ".data ++ natDigits (nRows df - nRows df1) ++
      " duplicate rows".data])
  else
    match a.column with
    | none => (df, [])
    | some c =>
        match getCol df c with
        | none => (df, [])
        | some col =>
            if a.act = "strip_whitespace".data then
              if col.dtype = .object then
                let newCol : Column :=
                  { dtype := .object,
                    values := col.values.map (fun v => .vstr (pyStrip (toStrV v))) }
                (setCol df c newCol,
                  ["Stripped whitespace from ".data ++ sq :: c ++ [sq]])
              else (df, [])
            else if a.act = "standardize_case".data then
              if col.dtype = .object then
                let newCol : Column :=
                  { dtype := .object,
                    values := col.values.map
                      (fun v => .vstr (pyTitle (pyStrip (toStrV v)))) }
                (setCol df c newCol,
                  ["Standardized casing in ".data ++ sq :: c ++ sq ::
                    " to title case".data])
              else (df, [])
            else if a.act = "impute_missing".data then
              let r := imputeMissing df c col a.methodStr
              (r.1, (r.2.map (fun l => "Filled ".data ++ l)))
            else if a.act = "clip_outliers".data then
              clipOutliers df c col
            else if a.act = "drop_column".data then
              (dropCol df c, ["Dropped column ".data ++ sq :: c ++ [sq]])
            else if a.act = "convert_numeric".data then
              let newCol : Column :=
                { dtype := .float64, values := col.values.map coerceValue }
              (setCol df c newCol,
                ["Converted ".data ++ sq :: c ++ sq :: " to numeric type".data])
            else (df, [])

/-- `apply_cleaning_actions(df, actions)`: apply the actions in order on a
copy of the frame, accumulating the log (source lines 7–72). -/
def apply_cleaning_actions (df : Table) (actions : List CleaningAction) :
    Table × List Str :=
  actions.foldl
    (fun acc a =>
      let r := applyAction acc.1 a
      (r.1, acc.2 ++ r.2))
    (df, [])

/-! ## Dynamic filter engine (`data_cleaner.get_dynamic_filter_options`,
`data_cleaner.apply_dynamic_filters`) -/

/-- Whether `small` occurs at the start of `l`. -/
def leadsWith (small : Str) (l : Str) : Bool :=
  match small, l with
  | [], _ => true
  | _ :: _, [] => false
  | a :: as, b :: bs => a = b && leadsWith as bs

/-- Python's `needle in hay` substring test. -/
def strContains (needle : Str) : Str → Bool
  | [] => needle.isEmpty
  | c :: rest => leadsWith needle (c :: rest) || strContains needle rest

/-- Insertion into a list sorted by `valueLe`. -/
def insSortedV (x : Value) (l : List Value) : List Value :=
  match l with
  | [] => [x]
  | y :: ys => if valueLe x y then x :: y :: ys else y :: insSortedV x ys

/-- `sorted(...)` over cell values. -/
def sortValues (l : List Value) : List Value := l.foldr insSortedV []

/-- One entry of the options dictionary returned by
`get_dynamic_filter_options`. -/
inductive FilterOption where
  | catVals : List Value → FilterOption
  | numRange : ℚ → ℚ → FilterOption
  deriving DecidableEq, Repr

/-- Smallest element of a list of rationals (0 on the empty list, never
consulted there). -/
def listMin (l : List ℚ) : ℚ :=
  match l with
  | [] => 0
  | x :: xs => xs.foldl min x

/-- Largest element of a list of rationals. -/
def listMax (l : List ℚ) : ℚ :=
  match l with
  | [] => 0
  | x :: xs => xs.foldl max x

/-- `get_dynamic_filter_options(df, categorical_columns, numeric_columns)`
(source lines 75–93): sorted distinct values per present categorical
column, then min/max of the coerced values per present numeric column with
at least one parseable value. -/
def get_dynamic_filter_options (df : Table)
    (categorical_columns numeric_columns : List Str) :
    List (Str × FilterOption) :=
  let catPart := categorical_columns.filterMap (fun c =>
    match getCol df c with
    | none => none
    | some col =>
        some (c, FilterOption.catVals
          (sortValues (dedupKeepFirst
            (col.values.filter (fun v => decide (v ≠ .null)))))))
  let numPart := numeric_columns.filterMap (fun c =>
    match getCol df c with
    | none => none
    | some col =>
        let ns := parseables col
        if ns.length > 0 then some (c, FilterOption.numRange (listMin ns) (listMax ns))
        else none)
  catPart ++ numPart

/-- The filters dictionary handed to `apply_dynamic_filters`: the source
keys categorical selections by the column name and numeric ranges by
`f"{col}_range"`; the two key families are modelled as two association
lists. -/
structure Filters where
  sels : List (Str × List Value) := []
  ranges : List (Str × (ℚ × ℚ)) := []
  deriving DecidableEq, Repr

/-- Dictionary lookup. -/
def lookupA {β : Type} (l : List (Str × β)) (k : Str) : Option β :=
  (l.find? (fun e => decide (e.1 = k))).map (fun e => e.2)

/-- Boolean-mask row filtering `filtered[pred(filtered[col])]`; subscripting
a missing column raises `KeyError`. -/
def filterRowsBy (df : Table) (c : Str) (pred : Value → Bool) :
    Except Str Table :=
  match getCol df c with
  | none => .error ("KeyError: ".data ++ c)
  | some col =>
      let keep := (List.range (nRows df)).filter
        (fun i => pred (col.values.getD i .null))
      .ok (selectRows df keep)

/-- The categorical loop of `apply_dynamic_filters` (source lines 100–102):
for each mapped categorical column whose name is a key of the filters with
a non-empty (truthy) selection, keep the rows whose value is selected.
There is no membership check against the frame's columns. -/
def catFilterLoop (filters : Filters) : Table → List Str → Except Str Table
  | t, [] => .ok t
  | t, c :: rest =>
      match lookupA filters.sels c with
      | some vs =>
          if vs ≠ [] then
            match filterRowsBy t c (fun v => vs.contains v) with
            | .error e => .error e
            | .ok t1 => catFilterLoop filters t1 rest
          else catFilterLoop filters t rest
      | none => catFilterLoop filters t rest

/-- The numeric loop of `apply_dynamic_filters` (source lines 104–109):
for each mapped numeric column with a `f"{col}_range"` filter entry, keep
the rows whose coerced value lies in the inclusive range (a `NaN`
comparison is false, so unparseable rows drop out).  Again no membership
check against the frame's columns. -/
def numFilterLoop (filters : Filters) : Table → List Str → Except Str Table
  | t, [] => .ok t
  | t, c :: rest =>
      match lookupA filters.ranges c with
      | some lohi =>
          match filterRowsBy t c
              (fun v => match toNumOpt v with
                | some q => decide (lohi.1 ≤ q ∧ q ≤ lohi.2)
                | none => false) with
          | .error e => .error e
          | .ok t1 => numFilterLoop filters t1 rest
      | none => numFilterLoop filters t rest

/-- `apply_dynamic_filters(df, filters, categorical_columns,
numeric_columns)` (source lines 96–111). -/
def apply_dynamic_filters (df : Table) (filters : Filters)
    (categorical_columns numeric_columns : List Str) : Except Str Table :=
  match catFilterLoop filters df categorical_columns with
  | .error e => .error e
  | .ok t1 => numFilterLoop filters t1 numeric_columns

/-! ## Type Inferencer (`data_profiler._infer_semantic_type`) -/

/-- Whether a character is one of the date separators `-` `/`. -/
def isSep (c : Char) : Bool := c = '-' ∨ c = '/'

/-- Day part of the date pattern: `\d{1,2}` at the end of the pattern is
satisfied by any leading digit (the match is a prefix match). -/
def matchDay (s : Str) : Bool :=
  match s with
  | d :: _ => d.isDigit
  | [] => false

/-- Month-and-day part of the date pattern, digits and separators, with the backtracking of the regex:
try a two-digit month, fall back to one digit. -/
def matchMonthDay (s : Str) : Bool :=
  match s with
  | m1 :: m2 :: s2 :: r =>
      if m1.isDigit then
        if m2.isDigit && isSep s2 then matchDay r
        else if isSep m2 then matchDay (s2 :: r)
        else false
      else false
  | _ => false
  -- with fewer than three characters left no day digit can follow a
  -- separator, so both regex alternatives fail

/-- The date-pattern test of the source as a boolean: a prefix
match of four digits, a separator, one or two digits, a separator, at
least one digit. -/
def matchesDate (s : Str) : Bool :=
  match s with
  | a :: b :: c :: d :: s1 :: rest =>
      a.isDigit && b.isDigit && c.isDigit && d.isDigit && isSep s1 &&
        matchMonthDay rest
  | _ => false

/-- The boolean-like literal set of the inferencer's step 4. -/
def boolLits : List Str :=
  ["true".data, "false".data, "0".data, "1".data,
   "yes".data, "no".data, "y".data, "n".data]

/-- `_infer_semantic_type(series)` (source lines 155–180).  The ratio
tests divide matches by the non-null count; on an empty non-null set the
source's `.mean()` is `NaN` and `NaN > 0.8` is false, which the explicit
emptiness conjunct mirrors.  The boolean check tests the lower-cased
stringified value set for inclusion in the literal set (an empty set is a
subset of anything). -/
def infer_semantic_type (col : Column) : Str :=
  if col.dtype.isNativeNumeric then "numeric".data
  else
    let nn := col.values.filter (fun v => decide (v ≠ .null))
    let parseCnt := (nn.filterMap toNumOpt).length
    if nn.length ≠ 0 ∧ (parseCnt : ℚ) / (nn.length : ℚ) > 4/5 then
      "numeric".data
    else
      let dateCnt := ((nn.map toStrV).filter matchesDate).length
      if nn.length ≠ 0 ∧ (dateCnt : ℚ) / (nn.length : ℚ) > 4/5 then
        "datetime".data
      else if (nn.map (fun v => lowerStr (toStrV v))).all
          (fun s => decide (s ∈ boolLits)) then
        "boolean".data
      else "categorical".data

/-! ## Column Profiler (`data_profiler._profile_column`) -/

/-- One detected quality issue: type, severity, human text with measured
numbers, suggested fix. -/
structure Issue where
  itype : Str
  severity : Str
  description : Str
  fix : Str
  deriving DecidableEq, Repr

/-- The optional `stats` block of a column profile.  The sample standard
deviation is irrational in general and is therefore recorded as its square
`stdSq` (the exact sample variance, `none` for fewer than two values where
pandas yields `NaN`); the source's two-decimal rounding of `std` is not
representable exactly and no claim consults it. -/
structure StatsRec where
  mean : ℚ
  median : ℚ
  stdSq : Option ℚ
  min : ℚ
  max : ℚ
  q1 : ℚ
  q3 : ℚ
  outlier_count : Option ℕ := none
  deriving DecidableEq, Repr

/-- The per-column profile dictionary.  `null_pct` is `none` on a zero-row
column, where the source's `series.isnull().mean()` is `NaN`. -/
structure ColumnInfo where
  dtypeStr : Str
  non_null : ℕ
  null_count : ℕ
  null_pct : Option ℚ
  unique_count : ℕ
  unique_pct : ℚ
  sample_values : List Value
  inferred_type : Str
  issues : List Issue
  stats : Option StatsRec := none
  top_values : Option (List (Value × ℕ)) := none
  deriving DecidableEq, Repr

/-- Exact sample variance with `ddof = 1` (the square of pandas
`Series.std()`); `none` below two values. -/
def sampleVar (l : List ℚ) : Option ℚ :=
  match l with
  | [] => none
  | [_] => none
  | _ =>
      let n : ℚ := l.length
      let m := l.sum / n
      some ((l.map (fun x => (x - m) ^ 2)).sum / (n - 1))

/-- Descending-by-count insertion used to model `value_counts()` (pandas
sorts by frequency; tie order among equal counts is not specified by the
source and is fixed here as first-occurrence order). -/
def insByCount (p : Value × ℕ) (l : List (Value × ℕ)) : List (Value × ℕ) :=
  match l with
  | [] => [p]
  | q :: qs => if p.2 > q.2 then p :: q :: qs else q :: insByCount p qs

/-- `series.dropna().value_counts().head(10).to_dict()`. -/
def topValues (nn : List Value) : List (Value × ℕ) :=
  let pairs := (dedupKeepFirst nn).map
    (fun v => (v, (nn.filter (fun w => decide (w = v))).length))
  (pairs.foldl (fun acc p => insByCount p acc) []).take 10

/-- The `missing_values` issue (source lines 59–66). -/
def missingIssue (nullCnt : ℕ) (p : ℚ) (inferred : Str) : Issue :=
  { itype := "missing_values".data,
    severity := if p > 20 then "high".data
      else if p > 5 then "medium".data else "low".data,
    description := natDigits nullCnt ++ " missing values (".data ++
      renderFloat2 p ++ "%)".data,
    fix := "Impute with ".data ++
      (if inferred = "numeric".data then "median".data else "mode".data) ++
      " or drop rows".data }

/-- Raw first quartile of the parseable values (`numeric_series.quantile(0.25)`,
0 stands for the `NaN` of an empty series, never consulted there). -/
def q1Of (ns : List ℚ) : ℚ := (quantileQ ns (1/4)).getD 0

/-- Raw third quartile (`numeric_series.quantile(0.75)`). -/
def q3Of (ns : List ℚ) : ℚ := (quantileQ ns (3/4)).getD 0

/-- `iqr = q3 - q1`. -/
def iqrOf (ns : List ℚ) : ℚ := q3Of ns - q1Of ns

/-- `lower = q1 - 1.5 * iqr`. -/
def lowerBound (ns : List ℚ) : ℚ := q1Of ns - 3/2 * iqrOf ns

/-- `upper = q3 + 1.5 * iqr`. -/
def upperBound (ns : List ℚ) : ℚ := q3Of ns + 3/2 * iqrOf ns

/-- `set(numeric_series.unique()).issubset({0, 1, 0.0, 1.0})`. -/
def isBinaryL (ns : List ℚ) : Bool := ns.all (fun q => decide (q = 0 ∨ q = 1))

/-- `((numeric_series < lower) | (numeric_series > upper)).sum()`:
the IQR-rule outlier count. -/
def outlierCnt (ns : List ℚ) : ℕ :=
  (ns.filter (fun q => decide (q < lowerBound ns ∨ q > upperBound ns))).length

/-- The outliers issue of the numeric path (source lines 91–96). -/
def outlierIssue (ns : List ℚ) : Issue :=
  { itype := "outliers".data,
    severity := if (outlierCnt ns : ℚ) / (ns.length : ℚ) < 1/20
      then "medium".data else "high".data,
    description := natDigits (outlierCnt ns) ++
      " potential outliers detected (IQR method, range: ".data ++
      renderFixed 1 (lowerBound ns) ++ " to ".data ++
      renderFixed 1 (upperBound ns) ++ [')'],
    fix := "Clip to IQR bounds or investigate individually".data }

/-- The negative-values issue of the numeric path (source lines 99–105). -/
def negativeIssue (ns : List ℚ) : Issue :=
  { itype := "negative_values".data,
    severity := "low".data,
    description := "Contains negative values (min: ".data ++
      renderFixed 2 (listMin ns) ++ [')'],
    fix := "Verify if negative values are expected for this column".data }

/-- The guard of the outlier report: a positive count, a non-binary
column, a positive IQR (source line 89). -/
def outlierActive (ns : List ℚ) : Prop :=
  outlierCnt ns > 0 ∧ isBinaryL ns = false ∧ iqrOf ns > 0

instance (ns : List ℚ) : Decidable (outlierActive ns) := by
  unfold outlierActive
  infer_instance

/-- The issues of the numeric path together with the stats block
(source lines 69–105): descriptive stats over the parseable values,
IQR outlier detection skipped for binary or zero-IQR columns, and the
negative-values note. -/
def numericProfile (ns : List ℚ) : Option StatsRec × List Issue :=
  match ns with
  | [] => (none, [])
  | _ =>
      let baseStats : StatsRec :=
        { mean := pyRound 2 ((meanQ ns).getD 0),
          median := pyRound 2 ((medianQ ns).getD 0),
          stdSq := sampleVar ns,
          min := pyRound 2 (listMin ns),
          max := pyRound 2 (listMax ns),
          q1 := pyRound 2 (q1Of ns),
          q3 := pyRound 2 (q3Of ns) }
      (some (if outlierActive ns then
          { baseStats with outlier_count := some (outlierCnt ns) }
        else baseStats),
       (if outlierActive ns then [outlierIssue ns] else []) ++
         (if listMin ns < 0 then [negativeIssue ns] else []))

/-- `(str_values != stripped).sum()`: the count of values that differ
from their stripped form (source line 124). -/
def whitespaceCount (nn : List Value) : ℕ :=
  (((nn.map toStrV).zip ((nn.map toStrV).map pyStrip)).filter
    (fun p => decide (p.1 ≠ p.2))).length

/-- The whitespace issue (source lines 125–131). -/
def whitespaceIssue (nn : List Value) : Issue :=
  { itype := "whitespace".data,
    severity := "low".data,
    description := natDigits (whitespaceCount nn) ++
      " values have leading/trailing whitespace".data,
    fix := "Strip whitespace from values".data }

/-- `lowered.nunique() < stripped.nunique()` (source line 135). -/
def caseCollapses (nn : List Value) : Prop :=
  (dedupKeepFirst (((nn.map toStrV).map pyStrip).map lowerStr)).length <
    (dedupKeepFirst ((nn.map toStrV).map pyStrip)).length

instance (nn : List Value) : Decidable (caseCollapses nn) := by
  unfold caseCollapses
  infer_instance

/-- The case-inconsistency issue, a fixed text (source lines 136–141). -/
def caseIssueRec : Issue :=
  { itype := "case_inconsistency".data,
    severity := "medium".data,
    description := "Possible case inconsistencies (e.g., ".data ++
      sq :: "Male".data ++ sq :: " vs ".data ++ sq :: "male".data ++
      sq :: [')'],
    fix := "Standardize text casing".data }

/-- The issues of the categorical path together with the top-values block
(source lines 108–141): ten most frequent values, whitespace mismatch
count, case-inconsistency presence check. -/
def categoricalProfile (nn : List Value) : List (Value × ℕ) × List Issue :=
  (topValues nn,
    (if whitespaceCount nn > 0 then [whitespaceIssue nn] else []) ++
      (if caseCollapses nn then [caseIssueRec] else []))

/-- `series.dropna()`: the non-null cells of a column. -/
def nnOf (col : Column) : List Value :=
  col.values.filter (fun v => decide (v ≠ .null))

/-- `series.nunique()`: the distinct non-null count. -/
def uniqueCountOf (col : Column) : ℕ := (dedupKeepFirst (nnOf col)).length

/-- `round(float(series.isnull().mean() * 100), 2)`; `none` models the
`NaN` of a zero-row column (source line 47). -/
def nullPctOf (col : Column) : Option ℚ :=
  if col.values.length = 0 then none
  else some (pyRound 2 ((nullCount col : ℚ) / (col.values.length : ℚ) * 100))

/-- `round(float(series.nunique() / len(series) * 100), 2)` guarded for
the zero-row column (source line 49). -/
def uniquePctOf (col : Column) : ℚ :=
  if col.values.length = 0 then 0
  else pyRound 2
    ((uniqueCountOf col : ℚ) / (col.values.length : ℚ) * 100)

/-- The missing-values issue list (source lines 59–66). -/
def missList (col : Column) : List Issue :=
  match nullPctOf col with
  | some p =>
      if p > 0 then
        [missingIssue (nullCount col) p (infer_semantic_type col)]
      else []
  | none => []

/-- The numeric branch's issues (source lines 69–105). -/
def numList (col : Column) : List Issue :=
  if infer_semantic_type col = "numeric".data then
    (numericProfile (parseables col)).2
  else []

/-- The high-cardinality issue list (source lines 113–119). -/
def hcList (col : Column) : List Issue :=
  if infer_semantic_type col = "categorical".data ∧
      uniqueCountOf col > 50 ∧ uniquePctOf col > 50 then
    [{ itype := "high_cardinality".data,
       severity := "medium".data,
       description := natDigits (uniqueCountOf col) ++
         " unique values - may be an ID column or need grouping".data,
       fix := "Consider if this is an identifier column or if values should be grouped".data }]
  else []

/-- The whitespace / case-inconsistency issues of the categorical branch
(source lines 121–141). -/
def catList (col : Column) : List Issue :=
  if infer_semantic_type col = "categorical".data then
    (categoricalProfile (nnOf col)).2
  else []

/-- The constant-column issue list (source lines 144–150). -/
def constList (col : Column) : List Issue :=
  if uniqueCountOf col ≤ 1 ∧ (nnOf col).length > 0 then
    [{ itype := "constant".data,
       severity := "medium".data,
       description := "Column has only one unique value - provides no analytical value".data,
       fix := "Consider removing this column".data }]
  else []

/-- `_profile_column` (source lines 40–152) for one column.  The
high-cardinality test compares the rounded `unique_pct` as the source
does; issue order is: missing values, then the numeric or categorical
branch's issues (high cardinality first on the categorical side), then
the constant-column issue. -/
def profile_column (col : Column) : ColumnInfo :=
  { dtypeStr := col.dtype.render,
    non_null := (nnOf col).length,
    null_count := nullCount col,
    null_pct := nullPctOf col,
    unique_count := uniqueCountOf col,
    unique_pct := uniquePctOf col,
    sample_values := (nnOf col).take 5,
    inferred_type := infer_semantic_type col,
    issues := missList col ++ numList col ++ hcList col ++ catList col ++
      constList col,
    stats := if infer_semantic_type col = "numeric".data then
        (numericProfile (parseables col)).1
      else none,
    top_values := if infer_semantic_type col = "categorical".data then
        some (categoricalProfile (nnOf col)).1
      else none }

/-! ## Cleaning Plan Generator (`data_profiler.generate_cleaning_plan`) -/

/-- The slice of a dataset profile that the plan generator reads: the row
count of the shape block, the duplicate-row count of the summary block,
and the per-column profiles in column order. -/
structure DatasetProfile where
  rows : ℕ
  duplicate_rows : ℕ
  columns : List (Str × ColumnInfo)
  deriving Repr

/-- The dataset-scope duplicate-removal action of the generator
(source lines 228–234). -/
def dedupAction (p : DatasetProfile) : CleaningAction :=
  { act := "remove_duplicates".data,
    description := "Remove ".data ++ natDigits p.duplicate_rows ++
      " duplicate rows".data,
    impact := "Reduces dataset from ".data ++ natDigits p.rows ++
      " to ".data ++ natDigits (p.rows - p.duplicate_rows) ++ " rows".data,
    auto := true }

/-- The generator's inner loop over one column's issues, appending the
compiled actions to the accumulator (source lines 238–284). -/
def planIssueLoop (c : Str) (info : ColumnInfo) :
    List CleaningAction → List Issue → List CleaningAction
  | acc, [] => acc
  | acc, iss :: rest =>
      let acc1 :=
        if iss.itype = "whitespace".data then
          acc ++ [{ act := "strip_whitespace".data, column := some c,
                    description := "Strip whitespace from ".data ++ sq :: c ++ [sq],
                    impact := iss.description, auto := true }]
        else if iss.itype = "case_inconsistency".data then
          acc ++ [{ act := "standardize_case".data, column := some c,
                    description := "Standardize casing in ".data ++ sq :: c ++
                      sq :: " (title case)".data,
                    impact := iss.description, auto := true }]
        else if iss.itype = "missing_values".data then
          let fm := if info.inferred_type = "numeric".data
            then "median".data else "mode".data
          acc ++ [{ act := "impute_missing".data, column := some c,
                    method := some fm,
                    description := "Fill ".data ++ natDigits info.null_count ++
                      " missing values in ".data ++ sq :: c ++ sq ::
                      " with ".data ++ fm,
                    impact := iss.description, auto := true }]
        else if iss.itype = "outliers".data then
          acc ++ [{ act := "clip_outliers".data, column := some c,
                    description := "Clip outliers in ".data ++ sq :: c ++
                      sq :: " to IQR bounds".data,
                    impact := iss.description, auto := false }]
        else if iss.itype = "constant".data then
          acc ++ [{ act := "drop_column".data, column := some c,
                    description := "Drop constant column ".data ++ sq :: c ++ [sq],
                    impact := iss.description, auto := false }]
        else acc
      planIssueLoop c info acc1 rest

/-- The generator's outer loop over the profiled columns. -/
def planColLoop :
    List CleaningAction → List (Str × ColumnInfo) → List CleaningAction
  | acc, [] => acc
  | acc, e :: rest => planColLoop (planIssueLoop e.1 e.2 acc e.2.issues) rest

/-- `generate_cleaning_plan(profile)` (source lines 223–286): the
dataset-scope duplicate removal first when duplicates exist, then the
per-column issue-to-action compilation in profile order. -/
def generate_cleaning_plan (p : DatasetProfile) : List CleaningAction :=
  let acc0 : List CleaningAction :=
    if p.duplicate_rows > 0 then [dedupAction p] else []
  planColLoop acc0 p.columns

/-! ## Mapping Suggester (`data_profiler.suggest_column_mapping`) -/

/-- The suggested role assignment. -/
structure ColumnMapping where
  id_column : Option Str := none
  target_column : Option Str := none
  numeric_columns : List Str := []
  categorical_columns : List Str := []
  date_column : Option Str := none
  deriving DecidableEq, Repr

/-- `col.lower().replace("_", " ").replace("-", " ")`. -/
def normName (n : Str) : Str :=
  n.map (fun c => if c = '_' ∨ c = '-' then ' ' else lowerChar c)

/-- `any(kw in col_lower for kw in kws)`. -/
def kwAny (nl : Str) (kws : List Str) : Bool :=
  kws.any (fun k => strContains k nl)

/-- Keywords of the id-column heuristic. -/
def idKws : List Str := ["id".data, "identifier".data, "key".data, "index".data]

/-- Keywords of the target-column heuristic. -/
def targetKws : List Str :=
  ["pass".data, "fail".data, "target".data, "outcome".data, "result".data,
   "label".data, "grade".data, "score".data, "status".data]

/-- Keywords of the date-column heuristic. -/
def dateKws : List Str :=
  ["date".data, "time".data, "year".data, "semester".data, "quarter".data,
   "month".data, "period".data]

/-- One iteration of the suggester's loop (source lines 193–218).  A
column that claims the id role `continue`s, skipping the remaining role
checks including the feature lists; an id-keyword column that arrives
after the id role is taken falls through like any other column. -/
def suggestStep (s : ColumnMapping) (n : Str) (col : Column) : ColumnMapping :=
  let nl := normName n
  if kwAny nl idKws ∧ s.id_column = none then { s with id_column := some n }
  else
    let s1 :=
      if kwAny nl targetKws ∧ s.target_column = none then
        { s with target_column := some n }
      else s
    let inferred := infer_semantic_type col
    let s2 :=
      if (inferred = "datetime".data ∨ kwAny nl dateKws) ∧ s1.date_column = none
      then { s1 with date_column := some n }
      else s1
    if inferred = "numeric".data then
      { s2 with numeric_columns := s2.numeric_columns ++ [n] }
    else if inferred = "categorical".data ∨ inferred = "boolean".data then
      { s2 with categorical_columns := s2.categorical_columns ++ [n] }
    else s2

/-- The suggester's fold over the columns in declaration order. -/
def suggestLoop (s : ColumnMapping) : Table → ColumnMapping
  | [] => s
  | e :: rest => suggestLoop (suggestStep s e.1 e.2) rest

/-- `suggest_column_mapping(df)` (source lines 183–220). -/
def suggest_column_mapping (df : Table) : ColumnMapping :=
  suggestLoop {} df

/-! ## Auxiliary definitions used by the statements of the claims -/

/-- Whether a cell is a number. -/
def isNumV (v : Value) : Bool :=
  match v with
  | .num _ => true
  | _ => false

/-- Whether a cell is text. -/
def isStrV (v : Value) : Bool :=
  match v with
  | .vstr _ => true
  | _ => false

/-- The issue-to-action mapping stated by the specification: whitespace,
case-inconsistency and missing-value issues compile to automatic actions
(imputation method median for numeric columns, mode otherwise), outlier
and constant issues to non-automatic ones, and the two informational
issue kinds to no action. -/
def issueAction (c : Str) (info : ColumnInfo) (iss : Issue) :
    Option CleaningAction :=
  if iss.itype = "whitespace".data then
    some { act := "strip_whitespace".data, column := some c,
           description := "Strip whitespace from ".data ++ sq :: c ++ [sq],
           impact := iss.description, auto := true }
  else if iss.itype = "case_inconsistency".data then
    some { act := "standardize_case".data, column := some c,
           description := "Standardize casing in ".data ++ sq :: c ++
             sq :: " (title case)".data,
           impact := iss.description, auto := true }
  else if iss.itype = "missing_values".data then
    let fm := if info.inferred_type = "numeric".data
      then "median".data else "mode".data
    some { act := "impute_missing".data, column := some c,
           method := some fm,
           description := "Fill ".data ++ natDigits info.null_count ++
             " missing values in ".data ++ sq :: c ++ sq :: " with ".data ++ fm,
           impact := iss.description, auto := true }
  else if iss.itype = "outliers".data then
    some { act := "clip_outliers".data, column := some c,
           description := "Clip outliers in ".data ++ sq :: c ++
             sq :: " to IQR bounds".data,
           impact := iss.description, auto := false }
  else if iss.itype = "constant".data then
    some { act := "drop_column".data, column := some c,
           description := "Drop constant column ".data ++ sq :: c ++ [sq],
           impact := iss.description, auto := false }
  else none

/-- The cleaning plan as described by the specification: one dataset-scope
automatic duplicate-removal action first when duplicates exist, then per
column in profile order and per issue in intra-column order the compiled
action of `issueAction`. -/
def planSpecC6 (p : DatasetProfile) : List CleaningAction :=
  (if p.duplicate_rows > 0 then [dedupAction p] else []) ++
    p.columns.flatMap (fun e => e.2.issues.filterMap (issueAction e.1 e.2))

/-- The id-role state after the suggester's loop: the first column whose
normalized name holds an id keyword while the role is unclaimed. -/
def idFold (st : Option Str) : Table → Option Str
  | [] => st
  | e :: rest =>
      idFold (if kwAny (normName e.1) idKws ∧ st = none then some e.1 else st)
        rest

/-- The feature lists accumulated by the suggester's loop, starting from
id-role state `st`: the column that claims the id role is skipped, every
other column lands in the numeric list when its inferred type is numeric,
in the categorical list when categorical or boolean, and in neither when
datetime. -/
def featLists (st : Option Str) : Table → List Str × List Str
  | [] => ([], [])
  | e :: rest =>
      if kwAny (normName e.1) idKws ∧ st = none then featLists (some e.1) rest
      else
        let r := featLists st rest
        let inferred := infer_semantic_type e.2
        if inferred = "numeric".data then (e.1 :: r.1, r.2)
        else if inferred = "categorical".data ∨ inferred = "boolean".data then
          (r.1, e.1 :: r.2)
        else r

/-! ## Concrete fixtures consumed by counterexamples and witnesses -/

/-- A numeric column whose IQR bounds move when an outlier is clipped. -/
def c1df : Table :=
  [("v".data, { dtype := Dtype.int64,
                values := [.num 0, .num 100, .num 100, .num 100] })]

/-- A `clip_outliers` action on that column. -/
def c1act : CleaningAction :=
  { act := "clip_outliers".data, column := some "v".data }

/-- A text column with surrounding whitespace and a null. -/
def c1stripDf : Table :=
  [("s".data, { dtype := Dtype.object,
                values := [.vstr " a ".data, .vstr "b".data, .null] })]

/-- A `strip_whitespace` action on that column. -/
def c1stripAct : CleaningAction :=
  { act := "strip_whitespace".data, column := some "s".data }

/-- A one-column frame for the stale-filter failure. -/
def c2df : Table := [("a".data, { dtype := Dtype.int64, values := [.num 1] })]

/-- Filters selecting values of a column `b` that the frame does not have. -/
def c2filters : Filters := { sels := [("b".data, [.vstr "x".data])] }

/-- An all-null object column. -/
def c3col : Column := { dtype := Dtype.object, values := [.null] }

/-- Another all-null object column. -/
def c3wcol : Column := { dtype := Dtype.object, values := [.null, .null] }

/-- An object column where exactly 80% of the values parse as numbers. -/
def c4col : Column :=
  { dtype := Dtype.object,
    values := [.vstr "1".data, .vstr "2".data, .vstr "3".data,
               .vstr "4".data, .vstr "x".data] }

/-- An object column where five of six values parse as numbers. -/
def c4wcol : Column :=
  { dtype := Dtype.object,
    values := [.vstr "1".data, .vstr "2".data, .vstr "3".data,
               .vstr "4".data, .vstr "5".data, .vstr "x".data] }

/-- A skewed binary column: its IQR bounds exclude the value 0, so the raw
IQR rule counts one outlier, yet the profiler's binary guard applies. -/
def c5colBinary : Column :=
  { dtype := Dtype.int64, values := [.num 0, .num 1, .num 1, .num 1] }

/-- The specification's outlier scenario column `[1, 2, 3, 4, 100]`. -/
def c5colOut : Column :=
  { dtype := Dtype.int64,
    values := [.num 1, .num 2, .num 3, .num 4, .num 100] }

/-- A frame whose only column is named `id` and is numeric. -/
def c7df : Table :=
  [("id".data, { dtype := Dtype.int64, values := [.num 1] })]

/-- A frame with an id-named column and an ordinary numeric column. -/
def c7wdf : Table :=
  [("id".data, { dtype := Dtype.int64, values := [.num 1] }),
   ("age".data, { dtype := Dtype.int64, values := [.num 2] })]

/-- An all-null native-float column. -/
def c8col : Column := { dtype := Dtype.float64, values := [.null, .null] }

/-- A text column with a pure case inconsistency. -/
def c9col : Column :=
  { dtype := Dtype.object, values := [.vstr "a".data, .vstr "A".data] }

/-- A text column with a whitespace-carrying value. -/
def c9wcol : Column :=
  { dtype := Dtype.object, values := [.vstr " a".data, .vstr "b".data] }

/-- A frame with a column holding unparseable text and a null. -/
def c10df : Table :=
  [("c".data, { dtype := Dtype.object, values := [.vstr "a".data, .null] })]

/-- A median imputation on that column. -/
def c10act : CleaningAction :=
  { act := "impute_missing".data, column := some "c".data,
    method := some "median".data }

/-- A frame with a column holding one numeric string and a null. -/
def c10wdf : Table :=
  [("n".data, { dtype := Dtype.object, values := [.vstr "1".data, .null] })]

/-- A median imputation on that column. -/
def c10wact : CleaningAction :=
  { act := "impute_missing".data, column := some "n".data,
    method := some "median".data }

/-! ## Theorems -/

-- Batteries marks the rational-number operations irreducible, which would
-- block evaluation of the executable definitions above inside `decide`;
-- restore the default reducibility for this file.
attribute [local semireducible] Rat.add Rat.sub Rat.mul Rat.inv

/-- C8: a column of native numeric storage type is classified `Numeric`
by the Type Inferencer regardless of its content. -/
theorem c8_native_numeric (col : Column)
    (h : col.dtype.isNativeNumeric = true) :
    infer_semantic_type col = "numeric".data := by
  simp [infer_semantic_type, h]

/-- Witness for C8 at an all-null native-float column. -/
theorem c8_native_numeric_witness :
    Dtype.isNativeNumeric c8col.dtype = true ∧
      infer_semantic_type c8col = "numeric".data :=
  ⟨by decide, c8_native_numeric c8col (by decide)⟩

/-- C3 counterexample: an all-null object column is inferred `boolean`,
not `categorical`, because the empty value set passes the boolean
subset test. -/
theorem c3_counterexample :
    infer_semantic_type c3col = "boolean".data ∧
      "boolean".data ≠ "categorical".data := by
  decide

/-- C3 as amended: a column of non-numeric storage whose values are all
null (including the zero-row column) is classified `boolean`: the numeric
and datetime ratio tests fail on the empty value set, and the empty
lower-cased value set is a subset of the boolean literal set. -/
theorem c3_amended (col : Column) (hd : col.dtype.isNativeNumeric = false)
    (hv : ∀ v ∈ col.values, v = Value.null) :
    infer_semantic_type col = "boolean".data := by
  have hnn : col.values.filter (fun v => decide (v ≠ Value.null)) = [] := by
    simp only [List.filter_eq_nil_iff]
    intro a ha
    simp [hv a ha]
  simp only [infer_semantic_type, hd, hnn]
  simp

/-- Witness for C3 at a two-row all-null object column. -/
theorem c3_amended_witness : infer_semantic_type c3wcol = "boolean".data :=
  c3_amended c3wcol (by decide) (by decide)

/-- C4 counterexample: on a column where exactly 80% of the non-null
values coerce to numeric the inferencer does not return `Numeric` (its
test is strict), it returns `categorical`. -/
theorem c4_counterexample :
    ((c4col.values.filter (fun v => decide (v ≠ Value.null))).filterMap
        toNumOpt).length * 5 =
      (c4col.values.filter (fun v => decide (v ≠ Value.null))).length * 4 ∧
    infer_semantic_type c4col = "categorical".data := by
  decide

/-- C4 as amended: a non-natively-numeric column is classified `Numeric`
when strictly more than 80% of its non-null values coerce to numeric
(the source compares with `> 0.8`, so the 80% boundary itself falls
through). -/
theorem c4_amended (col : Column) (hd : col.dtype.isNativeNumeric = false)
    (h : ((col.values.filter (fun v => decide (v ≠ Value.null))).filterMap
        toNumOpt).length * 5 >
      (col.values.filter (fun v => decide (v ≠ Value.null))).length * 4) :
    infer_semantic_type col = "numeric".data := by
  have hle : ((col.values.filter (fun v => decide (v ≠ Value.null))).filterMap
      toNumOpt).length ≤
      (col.values.filter (fun v => decide (v ≠ Value.null))).length :=
    List.length_filterMap_le _ _
  have hlen : (col.values.filter (fun v => decide (v ≠ Value.null))).length ≠ 0 := by
    omega
  have hq : (((col.values.filter (fun v => decide (v ≠ Value.null))).filterMap
      toNumOpt).length : ℚ) /
      ((col.values.filter (fun v => decide (v ≠ Value.null))).length : ℚ) > 4/5 := by
    rw [gt_iff_lt, div_lt_div_iff₀ (by norm_num)
      (by exact_mod_cast Nat.pos_of_ne_zero hlen)]
    have h2 : 4 * (col.values.filter (fun v => decide (v ≠ Value.null))).length <
        ((col.values.filter (fun v => decide (v ≠ Value.null))).filterMap
          toNumOpt).length * 5 := by omega
    exact_mod_cast h2
  simp only [infer_semantic_type, hd]
  rw [if_neg (by simp), if_pos ⟨hlen, hq⟩]

/-- Witness for C4 at a column with five parseable values out of six. -/
theorem c4_amended_witness : infer_semantic_type c4wcol = "numeric".data :=
  c4_amended c4wcol (by decide) (by decide)

/-- C2: evaluation of the code at the failing input: `apply_dynamic_filters`
subscripts the frame with a filtered column name without checking
membership, so a stale categorical column named in the filters raises
`KeyError` instead of being skipped. -/
theorem c2_stale_filter_raises :
    apply_dynamic_filters c2df c2filters ["b".data] [] =
      Except.error ("KeyError: b".data) := by
  rfl

/-- C1 counterexample: `clip_outliers` applied twice to the column
`[0, 100, 100, 100]` clips further on the second run (the bounds are
recomputed from the already-clipped data), so the executor is not
idempotent on it. -/
theorem c1_counterexample :
    (apply_cleaning_actions (apply_cleaning_actions c1df [c1act]).1
        [c1act]).1 ≠
      (apply_cleaning_actions c1df [c1act]).1 := by
  decide

/-- C5 counterexample: on the skewed binary column `[0, 1, 1, 1]` the raw
IQR rule counts one outlier and the profiler reports no outlier count at
all (the stats block omits the field), rather than reporting a count
of 0 as the claim states. -/
theorem c5_counterexample :
    (profile_column c5colBinary).issues.filter
        (fun i => decide (i.itype = "outliers".data)) = [] ∧
      ((profile_column c5colBinary).stats.bind
        (fun s => s.outlier_count)) = none ∧
      outlierCnt (parseables c5colBinary) = 1 := by
  decide

/-- C7 counterexample: a numeric column named `id` claims the id role and
is then skipped by the loop's `continue`, landing in neither feature
list, contradicting the claim that every column is appended regardless of
role assignment. -/
theorem c7_counterexample :
    suggest_column_mapping c7df =
      { id_column := some "id".data, target_column := none,
        numeric_columns := [], categorical_columns := [],
        date_column := none } ∧
      infer_semantic_type { dtype := Dtype.int64, values := [.num 1] } =
        "numeric".data := by
  decide

/-- C9 counterexample: a column with a pure case inconsistency emits one
issue whose description (`Possible case inconsistencies (e.g., 'Male' vs
'male')`) embeds no measured number. -/
theorem c9_counterexample :
    (profile_column c9col).issues.map (fun i => i.itype) =
        ["case_inconsistency".data] ∧
      (profile_column c9col).issues.all
        (fun i => i.description.any Char.isDigit) = false := by
  decide

/-! Digit lemmas for the issue descriptions (claim C9). -/

theorem digitCh_isDigit (d : ℕ) : (digitCh d).isDigit = true := by
  unfold digitCh
  split <;> decide

theorem natDigitsGo_all_digit :
    ∀ fuel m : ℕ, ∀ c ∈ natDigitsGo fuel m, c.isDigit = true := by
  intro fuel
  induction fuel with
  | zero => intro m c h; simp [natDigitsGo] at h
  | succ f ih =>
      intro m c h
      rw [natDigitsGo] at h
      split at h
      · simp only [List.mem_singleton] at h
        exact h ▸ digitCh_isDigit m
      · rcases List.mem_append.1 h with h1 | h1
        · exact ih _ c h1
        · simp only [List.mem_singleton] at h1
          exact h1 ▸ digitCh_isDigit (m % 10)

theorem natDigits_ne_nil (n : ℕ) : natDigits n ≠ [] := by
  unfold natDigits
  rw [natDigitsGo]
  split
  · simp
  · simp

theorem natDigits_any_digit (n : ℕ) : (natDigits n).any Char.isDigit = true := by
  cases h : natDigits n with
  | nil => exact absurd h (natDigits_ne_nil n)
  | cons c cs =>
      have hc : c ∈ natDigits n := by rw [h]; exact List.mem_cons_self c cs
      have := natDigitsGo_all_digit (n + 1) n c hc
      simp [List.any_cons, this]

theorem append_any_digit_left (s t : Str) (h : s.any Char.isDigit = true) :
    (s ++ t).any Char.isDigit = true := by
  simp [List.any_append, h]

theorem append_any_digit_right (s t : Str) (h : t.any Char.isDigit = true) :
    (s ++ t).any Char.isDigit = true := by
  simp [List.any_append, h]

theorem renderFixed_any_digit (d : ℕ) (q : ℚ) :
    (renderFixed d q).any Char.isDigit = true := by
  unfold renderFixed
  apply append_any_digit_left
  apply append_any_digit_right
  exact natDigits_any_digit _

theorem renderFloat2_any_digit (q : ℚ) :
    (renderFloat2 q).any Char.isDigit = true := by
  unfold renderFloat2
  apply append_any_digit_left
  apply append_any_digit_right
  exact natDigits_any_digit _

theorem numericProfile_snd (a : ℚ) (l : List ℚ) :
    (numericProfile (a :: l)).2 =
      (if outlierActive (a :: l) then [outlierIssue (a :: l)] else []) ++
        (if listMin (a :: l) < 0 then [negativeIssue (a :: l)] else []) :=
  rfl

theorem numericProfile_desc_digit (ns : List ℚ) :
    ∀ iss ∈ (numericProfile ns).2, iss.description.any Char.isDigit = true := by
  intro iss h
  cases ns with
  | nil => simp [numericProfile] at h
  | cons a l =>
      rw [numericProfile_snd] at h
      rcases List.mem_append.1 h with h1 | h1
      · split at h1
        · simp only [List.mem_singleton] at h1
          subst h1
          simp [outlierIssue, List.any_append, natDigits_any_digit]
        · simp at h1
      · split at h1
        · simp only [List.mem_singleton] at h1
          subst h1
          simp [negativeIssue, List.any_append, renderFixed_any_digit]
        · simp at h1

theorem categoricalProfile_desc (nn : List Value) :
    ∀ iss ∈ (categoricalProfile nn).2,
      iss.itype = "case_inconsistency".data ∨
        iss.description.any Char.isDigit = true := by
  intro iss h
  unfold categoricalProfile at h
  rcases List.mem_append.1 h with h1 | h1
  · split at h1
    · simp only [List.mem_singleton] at h1
      subst h1
      exact Or.inr (by simp [whitespaceIssue, List.any_append, natDigits_any_digit])
    · simp at h1
  · split at h1
    · simp only [List.mem_singleton] at h1
      subst h1
      exact Or.inl rfl
    · simp at h1

/-- C9 as amended: every emitted issue description embeds a measured
number, with the exception of the case-inconsistency issue and the
constant-column issue, whose texts are fixed and digit-free. -/
theorem c9_amended (col : Column) :
    ∀ iss ∈ (profile_column col).issues,
      iss.itype ≠ "case_inconsistency".data → iss.itype ≠ "constant".data →
      iss.description.any Char.isDigit = true := by
  intro iss hmem hcase hconst
  simp only [profile_column, List.mem_append] at hmem
  rcases hmem with (((hm | hm) | hm) | hm) | hm
  · -- missing-values issue
    unfold missList at hm
    split at hm
    · split at hm
      · simp only [List.mem_singleton] at hm
        subst hm
        simp [missingIssue, List.any_append, natDigits_any_digit]
      · simp at hm
    · simp at hm
  · -- numeric branch
    unfold numList at hm
    split at hm
    · exact numericProfile_desc_digit _ iss hm
    · simp at hm
  · -- high-cardinality issue
    unfold hcList at hm
    split at hm
    · simp only [List.mem_singleton] at hm
      subst hm
      simp [List.any_append, natDigits_any_digit]
    · simp at hm
  · -- categorical branch
    unfold catList at hm
    split at hm
    · rcases categoricalProfile_desc _ iss hm with h | h
      · exact absurd h hcase
      · exact h
    · simp at hm
  · -- constant issue
    unfold constList at hm
    split at hm
    · simp only [List.mem_singleton] at hm
      subst hm
      exact absurd rfl hconst
    · simp at hm

/-- Witness for C9: the whitespace issue of a concrete column carries a
digit-bearing description. -/
theorem c9_amended_witness :
    ∃ iss ∈ (profile_column c9wcol).issues,
      iss.description.any Char.isDigit = true := by
  have hm : whitespaceIssue
      (c9wcol.values.filter (fun v => decide (v ≠ Value.null))) ∈
      (profile_column c9wcol).issues := by decide
  exact ⟨_, hm, c9_amended c9wcol _ hm (by decide) (by decide)⟩

/-- C10 counterexample: median imputation on a column holding only
unparseable text and a null leaves an all-null column (the recomputed
median of no parseable values is null), so the result does not consist
of numeric values only. -/
theorem c10_counterexample :
    getCol (apply_cleaning_actions c10df [c10act]).1 "c".data =
        some { dtype := Dtype.float64, values := [Value.null, Value.null] } ∧
      ([Value.null, Value.null].all isNumV) = false := by
  decide

/-! Lemmas about table access and imputation (claim C10). -/

theorem getCol_setCol (df : Table) (c : Str) (col x : Column)
    (h : getCol df c = some col) : getCol (setCol df c x) c = some x := by
  induction df with
  | nil => simp [getCol] at h
  | cons e rest ih =>
      by_cases hc : e.1 = c
      · simp [getCol, setCol, List.find?_cons, hc]
      · have hdec : (decide (e.1 = c)) = false := by simp [hc]
        simp only [getCol, setCol, List.map_cons, List.find?_cons] at h ⊢
        rw [if_neg hc]
        rw [hdec] at h ⊢
        simp only [getCol, setCol] at ih
        exact ih h

theorem fill_coerce_map (vs : List Value) (fillv : Value) :
    fillList (vs.map coerceValue) fillv =
      vs.map (fun v => match toNumOpt v with
        | some q => Value.num q
        | none => fillv) := by
  induction vs with
  | nil => rfl
  | cons v l ih =>
      simp only [List.map_cons, fillList, List.map] at ih ⊢
      cases h : toNumOpt v <;> simp [coerceValue, h, ih]

theorem medianQ_none_iff (ns : List ℚ) : medianQ ns = none ↔ ns = [] := by
  cases ns <;> simp [medianQ, quantileQ]

theorem meanQ_none_iff (ns : List ℚ) : meanQ ns = none ↔ ns = [] := by
  cases ns <;> simp [meanQ]

theorem mapFill_isStr (vs : List Value) (fv : Value) (h : isStrV fv = false) :
    ∀ v ∈ vs.map (fun v => match toNumOpt v with
      | some q => Value.num q
      | none => fv), isStrV v = false := by
  intro v hv
  rcases List.mem_map.1 hv with ⟨w, _, rfl⟩
  cases htn : toNumOpt w <;> simp [htn, isStrV]
  exact h

theorem mapFill_isNum (vs : List Value) (m : ℚ) :
    ∀ v ∈ vs.map (fun v => match toNumOpt v with
      | some q => Value.num q
      | none => Value.num m), isNumV v = true := by
  intro v hv
  rcases List.mem_map.1 hv with ⟨w, _, rfl⟩
  cases htn : toNumOpt w <;> simp [htn, isNumV]

theorem mapFill_null (vs : List Value) (h : ∀ w ∈ vs, toNumOpt w = none) :
    ∀ v ∈ vs.map (fun v => match toNumOpt v with
      | some q => Value.num q
      | none => Value.null), v = Value.null := by
  intro v hv
  rcases List.mem_map.1 hv with ⟨w, hw, rfl⟩
  simp [h w hw]

/-- C10 as amended: `impute_missing` with method median or mean on a
column with at least one null replaces the whole column by its numeric
coercion filled with the recomputed median/mean: unparseable non-null
values are overwritten together with the nulls, no text survives, every
cell is numeric when the column had at least one parseable value, and the
column becomes all-null otherwise. -/
theorem c10_amended (df : Table) (c : Str) (col : Column) (a : CleaningAction)
    (ha : a.act = "impute_missing".data)
    (hcol0 : a.column = some c)
    (hcol : getCol df c = some col)
    (hm : a.methodStr = "median".data ∨ a.methodStr = "mean".data)
    (hnull : nullCount col ≠ 0) :
    ∃ col', getCol (apply_cleaning_actions df [a]).1 c = some col' ∧
      col'.dtype = Dtype.float64 ∧
      col'.values = col.values.map (fun v =>
        match toNumOpt v with
        | some q => Value.num q
        | none =>
            match (if a.methodStr = "median".data
              then medianQ (parseables col) else meanQ (parseables col)) with
            | some m => Value.num m
            | none => Value.null) ∧
      (∀ v ∈ col'.values, isStrV v = false) ∧
      (parseables col ≠ [] → ∀ v ∈ col'.values, isNumV v = true) ∧
      (parseables col = [] → ∀ v ∈ col'.values, v = Value.null) := by
  have h1 : (apply_cleaning_actions df [a]).1 = (applyAction df a).1 := rfl
  rw [h1]
  have hmm : a.methodStr = "median".data ∨ a.methodStr = "mean".data := hm
  simp only [applyAction, ha, hcol0, hcol, imputeMissing]
  rw [if_neg (by decide), if_neg (by decide), if_neg (by decide),
    if_pos (by decide)]
  simp only [reduceIte, hnull, if_false, if_pos hmm]
  rcases hqe : (if a.methodStr = "median".data
      then medianQ (parseables col) else meanQ (parseables col)) with _ | m
  · -- the recomputed fill value is NaN: no parseable value at all
    have hnil : parseables col = [] := by
      rcases hmm with h | h <;> rw [h] at hqe <;> simp only [reduceIte] at hqe
      · exact (medianQ_none_iff _).1 hqe
      · exact (meanQ_none_iff _).1 hqe
    refine ⟨_, getCol_setCol df c col _ hcol, rfl,
      fill_coerce_map col.values _, ?_, ?_, ?_⟩
    · simp only [fill_coerce_map]
      exact mapFill_isStr col.values _ rfl
    · intro hne
      exact absurd hnil hne
    · intro _
      simp only [fill_coerce_map]
      exact mapFill_null col.values
        (fun w hw => List.filterMap_eq_nil_iff.1 hnil w hw)
  · -- the fill value is a number: the whole column becomes numeric
    have hne : parseables col ≠ [] := by
      intro h0
      rcases hmm with h | h <;> rw [h] at hqe <;> simp only [reduceIte] at hqe
      · rw [(medianQ_none_iff _).2 h0] at hqe
        exact Option.noConfusion hqe
      · rw [(meanQ_none_iff _).2 h0] at hqe
        exact Option.noConfusion hqe
    refine ⟨_, getCol_setCol df c col _ hcol, rfl,
      fill_coerce_map col.values _, ?_, ?_, ?_⟩
    · simp only [fill_coerce_map]
      exact mapFill_isStr col.values _ rfl
    · intro _
      simp only [fill_coerce_map]
      exact mapFill_isNum col.values m
    · intro h0
      exact absurd h0 hne

/-- Witness for C10: median imputation on a column holding the text `1`
and a null produces the all-numeric column `[1, 1]`. -/
theorem c10_amended_witness :
    ∃ col', getCol (apply_cleaning_actions c10wdf [c10wact]).1 "n".data =
        some col' ∧ ∀ v ∈ col'.values, isNumV v = true := by
  rcases c10_amended c10wdf "n".data
      { dtype := Dtype.object, values := [.vstr "1".data, .null] } c10wact
      (by decide) (by decide) (by decide) (Or.inl (by decide)) (by decide) with
    ⟨col', h1, _, _, _, h5, _⟩
  exact ⟨col', h1, h5 (by decide)⟩

/-! Lemmas for the plan generator (claim C6). -/

theorem planIssueLoop_cons (c : Str) (info : ColumnInfo)
    (acc : List CleaningAction) (i : Issue) (rest : List Issue) :
    planIssueLoop c info acc (i :: rest) =
      planIssueLoop c info (acc ++ (issueAction c info i).toList) rest := by
  rw [planIssueLoop]
  congr 1
  unfold issueAction
  split_ifs <;> simp

theorem planIssueLoop_eq (c : Str) (info : ColumnInfo) :
    ∀ (iss : List Issue) (acc : List CleaningAction),
      planIssueLoop c info acc iss =
        acc ++ iss.filterMap (issueAction c info) := by
  intro iss
  induction iss with
  | nil => intro acc; simp [planIssueLoop]
  | cons i rest ih =>
      intro acc
      rw [planIssueLoop_cons, ih, List.filterMap_cons]
      cases h : issueAction c info i <;> simp [h]

theorem planColLoop_eq :
    ∀ (cols : List (Str × ColumnInfo)) (acc : List CleaningAction),
      planColLoop acc cols =
        acc ++ cols.flatMap
          (fun e => e.2.issues.filterMap (issueAction e.1 e.2)) := by
  intro cols
  induction cols with
  | nil => intro acc; simp [planColLoop]
  | cons e rest ih =>
      intro acc
      rw [planColLoop, ih, planIssueLoop_eq]
      simp

/-- C6: the Cleaning Plan Generator emits exactly the specified
compilation: one dataset-scope automatic `remove_duplicates` first
whenever `duplicate_rows > 0`, then, iterating columns in profile order
and issues in per-column order, the per-issue action mapping — whitespace
to automatic strip, case inconsistency to automatic casing, missing
values to automatic imputation with median for numeric columns and mode
otherwise, outliers to non-automatic clipping, constant to non-automatic
column drop, and nothing for the two informational issue kinds. -/
theorem c6_plan_generator (p : DatasetProfile) :
    generate_cleaning_plan p = planSpecC6 p := by
  unfold generate_cleaning_plan planSpecC6
  rw [planColLoop_eq]

/-! Lemmas for the outlier report (claim C5). -/

theorem numericProfile_count_none (ns : List ℚ) (hne : ns ≠ [])
    (hna : ¬ outlierActive ns) :
    ∃ s, (numericProfile ns).1 = some s ∧ s.outlier_count = none := by
  cases ns with
  | nil => exact absurd rfl hne
  | cons a l =>
      refine ⟨_, rfl, ?_⟩
      rw [if_neg hna]

theorem numericProfile_count_some (ns : List ℚ) (hact : outlierActive ns) :
    ∃ s, (numericProfile ns).1 = some s ∧
      s.outlier_count = some (outlierCnt ns) := by
  cases ns with
  | nil =>
      rcases hact with ⟨h1, -⟩
      simp [outlierCnt] at h1
  | cons a l =>
      refine ⟨_, rfl, ?_⟩
      rw [if_pos hact]

theorem missList_filter_outliers (col : Column) :
    (missList col).filter (fun i => decide (i.itype = "outliers".data)) = [] := by
  unfold missList
  split
  · split
    · simp [missingIssue]
    · rfl
  · rfl

theorem constList_filter_outliers (col : Column) :
    (constList col).filter (fun i => decide (i.itype = "outliers".data)) = [] := by
  unfold constList
  split
  · simp
  · rfl

theorem hcList_of_numeric (col : Column)
    (hinf : infer_semantic_type col = "numeric".data) : hcList col = [] := by
  unfold hcList
  rw [if_neg]
  intro h
  exact absurd (hinf ▸ h.1) (by decide)

theorem catList_of_numeric (col : Column)
    (hinf : infer_semantic_type col = "numeric".data) : catList col = [] := by
  unfold catList
  rw [if_neg]
  intro h
  exact absurd (hinf ▸ h) (by decide)

theorem numericProfile_filter_none (a : ℚ) (l : List ℚ)
    (hna : ¬ outlierActive (a :: l)) :
    (numericProfile (a :: l)).2.filter
      (fun i => decide (i.itype = "outliers".data)) = [] := by
  rw [numericProfile_snd, if_neg hna]
  simp only [List.nil_append]
  split <;> simp [negativeIssue]

theorem numericProfile_filter_some (a : ℚ) (l : List ℚ)
    (hact : outlierActive (a :: l)) :
    (numericProfile (a :: l)).2.filter
      (fun i => decide (i.itype = "outliers".data)) =
        [outlierIssue (a :: l)] := by
  rw [numericProfile_snd, if_pos hact, List.filter_append]
  have h1 : [outlierIssue (a :: l)].filter
      (fun i => decide (i.itype = "outliers".data)) = [outlierIssue (a :: l)] := by
    simp [outlierIssue]
  rw [h1]
  have h2 : (if listMin (a :: l) < 0 then [negativeIssue (a :: l)] else []).filter
      (fun i => decide (i.itype = "outliers".data)) = [] := by
    split <;> simp [negativeIssue]
  rw [h2]
  simp

/-- C5 as amended: for a column inferred numeric with at least one
parseable value, the profiler emits no outliers issue and omits the
outlier count from the stats block when the report guard is off (binary
column, non-positive IQR, or no value beyond the fences); when the guard
is on it emits exactly one outliers issue, records the count, and grades
severity high exactly when the outlier share of the parseable values
reaches 5%. -/
theorem c5_amended (col : Column)
    (hinf : infer_semantic_type col = "numeric".data)
    (hne : parseables col ≠ []) :
    (¬ outlierActive (parseables col) →
      (profile_column col).issues.filter
        (fun i => decide (i.itype = "outliers".data)) = [] ∧
      ∃ s, (profile_column col).stats = some s ∧ s.outlier_count = none) ∧
    (outlierActive (parseables col) →
      (profile_column col).issues.filter
        (fun i => decide (i.itype = "outliers".data)) =
          [outlierIssue (parseables col)] ∧
      (outlierIssue (parseables col)).severity =
        (if (outlierCnt (parseables col) : ℚ) /
            ((parseables col).length : ℚ) < 1/20
          then "medium".data else "high".data) ∧
      ∃ s, (profile_column col).stats = some s ∧
        s.outlier_count = some (outlierCnt (parseables col))) := by
  have hstats : (profile_column col).stats =
      (numericProfile (parseables col)).1 := by
    simp only [profile_column]
    rw [if_pos hinf]
  have hfil : (profile_column col).issues.filter
      (fun i => decide (i.itype = "outliers".data)) =
      (numericProfile (parseables col)).2.filter
        (fun i => decide (i.itype = "outliers".data)) := by
    simp only [profile_column, List.filter_append]
    rw [missList_filter_outliers, hcList_of_numeric col hinf,
      catList_of_numeric col hinf, constList_filter_outliers]
    unfold numList
    rw [if_pos hinf]
    simp
  obtain ⟨a, l, hal⟩ : ∃ a l, parseables col = a :: l := by
    cases h : parseables col with
    | nil => exact absurd h hne
    | cons a l => exact ⟨a, l, rfl⟩
  constructor
  · intro hna
    refine ⟨?_, ?_⟩
    · rw [hfil, hal]
      exact numericProfile_filter_none a l (hal ▸ hna)
    · rw [hstats]
      exact numericProfile_count_none _ hne hna
  · intro hact
    refine ⟨?_, rfl, ?_⟩
    · rw [hfil, hal]
      exact numericProfile_filter_some a l (hal ▸ hact)
    · rw [hstats]
      exact numericProfile_count_some _ hact

/-- Witness for C5 at the column `[1, 2, 3, 4, 100]`: one outlier beyond
the fences, reported with a recorded count of 1 and high severity (1 of 5
parseable values is 20% ≥ 5%). -/
theorem c5_amended_witness :
    (profile_column c5colOut).issues.filter
        (fun i => decide (i.itype = "outliers".data)) =
      [outlierIssue (parseables c5colOut)] ∧
    (outlierIssue (parseables c5colOut)).severity = "high".data ∧
    ∃ s, (profile_column c5colOut).stats = some s ∧
      s.outlier_count = some 1 := by
  have h := (c5_amended c5colOut (by decide) (by decide)).2 (by decide)
  refine ⟨h.1, by decide, ?_⟩
  have h3 := h.2.2
  rw [show outlierCnt (parseables c5colOut) = 1 from by decide] at h3
  exact h3

/-! Lemmas for the mapping suggester (claim C7). -/

theorem suggestLoop_cons (s : ColumnMapping) (e : Str × Column)
    (rest : Table) :
    suggestLoop s (e :: rest) = suggestLoop (suggestStep s e.1 e.2) rest := rfl

theorem idFold_cons (st : Option Str) (e : Str × Column) (rest : Table) :
    idFold st (e :: rest) =
      idFold (if kwAny (normName e.1) idKws ∧ st = none then some e.1 else st)
        rest := rfl

theorem idFold_stable (cols : Table) (x : Str) :
    ∀ st, st = some x → idFold st cols = some x := by
  induction cols with
  | nil => intro st h; exact h
  | cons e rest ih =>
      intro st h
      rw [idFold_cons]
      subst h
      rw [if_neg (fun hc => Option.noConfusion hc.2)]
      exact ih _ rfl

theorem idFold_mem (cols : Table) :
    ∀ st x, idFold st cols = some x → st = some x ∨ x ∈ cols.map Prod.fst := by
  induction cols with
  | nil => intro st x h; exact Or.inl h
  | cons e rest ih =>
      intro st x h
      rw [idFold_cons] at h
      split at h
      · rcases ih _ x h with h1 | h1
        · obtain rfl := Option.some_inj.1 h1
          exact Or.inr (List.mem_map_of_mem Prod.fst (List.mem_cons_self e rest))
        · exact Or.inr (List.mem_cons_of_mem _ h1)
      · rcases ih _ x h with h1 | h1
        · exact Or.inl h1
        · exact Or.inr (List.mem_cons_of_mem _ h1)

theorem suggestStep_skip (s : ColumnMapping) (n : Str) (col : Column)
    (h : kwAny (normName n) idKws ∧ s.id_column = none) :
    suggestStep s n col = { s with id_column := some n } := by
  unfold suggestStep
  rw [if_pos h]

theorem suggestStep_fields (s : ColumnMapping) (n : Str) (col : Column)
    (h : ¬(kwAny (normName n) idKws ∧ s.id_column = none)) :
    (suggestStep s n col).id_column = s.id_column ∧
    (suggestStep s n col).numeric_columns = s.numeric_columns ++
      (if infer_semantic_type col = "numeric".data then [n] else []) ∧
    (suggestStep s n col).categorical_columns = s.categorical_columns ++
      (if infer_semantic_type col = "categorical".data ∨
        infer_semantic_type col = "boolean".data then [n] else []) := by
  unfold suggestStep
  rw [if_neg h]
  dsimp only
  split_ifs <;> simp_all

theorem featLists_cons (st : Option Str) (e : Str × Column) (rest : Table) :
    featLists st (e :: rest) =
      if kwAny (normName e.1) idKws ∧ st = none then featLists (some e.1) rest
      else
        (((if infer_semantic_type e.2 = "numeric".data then [e.1] else []) ++
            (featLists st rest).1),
         ((if infer_semantic_type e.2 = "categorical".data ∨
              infer_semantic_type e.2 = "boolean".data then [e.1] else []) ++
            (featLists st rest).2)) := by
  show (if kwAny (normName e.1) idKws ∧ st = none then featLists (some e.1) rest
      else
        let r := featLists st rest
        let inferred := infer_semantic_type e.2
        if inferred = "numeric".data then (e.1 :: r.1, r.2)
        else if inferred = "categorical".data ∨ inferred = "boolean".data then
          (r.1, e.1 :: r.2)
        else r) = _
  split
  · rfl
  · split_ifs <;> simp_all

theorem suggestLoop_spec (cols : Table) :
    ∀ s : ColumnMapping,
      (suggestLoop s cols).numeric_columns =
        s.numeric_columns ++ (featLists s.id_column cols).1 ∧
      (suggestLoop s cols).categorical_columns =
        s.categorical_columns ++ (featLists s.id_column cols).2 ∧
      (suggestLoop s cols).id_column = idFold s.id_column cols := by
  induction cols with
  | nil => intro s; simp [suggestLoop, featLists, idFold]
  | cons e rest ih =>
      intro s
      rw [suggestLoop_cons, featLists_cons, idFold_cons]
      by_cases hid : kwAny (normName e.1) idKws ∧ s.id_column = none
      · rw [suggestStep_skip s e.1 e.2 hid, if_pos hid, if_pos hid]
        exact ih { s with id_column := some e.1 }
      · obtain ⟨h1, h2, h3⟩ := suggestStep_fields s e.1 e.2 hid
        obtain ⟨ihn, ihc, ihi⟩ := ih (suggestStep s e.1 e.2)
        rw [if_neg hid, if_neg hid]
        refine ⟨?_, ?_, ?_⟩
        · rw [ihn, h1, h2, List.append_assoc]
        · rw [ihc, h1, h3, List.append_assoc]
        · rw [ihi, h1]

theorem featLists_subset (cols : Table) :
    ∀ st x, (x ∈ (featLists st cols).1 → x ∈ cols.map Prod.fst) ∧
      (x ∈ (featLists st cols).2 → x ∈ cols.map Prod.fst) := by
  induction cols with
  | nil => intro st x; simp [featLists]
  | cons e rest ih =>
      intro st x
      rw [featLists_cons]
      split
      · exact ⟨fun h => List.mem_cons_of_mem _ ((ih _ x).1 h),
          fun h => List.mem_cons_of_mem _ ((ih _ x).2 h)⟩
      · constructor
        · intro h
          rcases List.mem_append.1 h with h1 | h1
          · split at h1
            · simp only [List.mem_singleton] at h1
              exact h1 ▸ List.mem_cons_self _ _
            · simp at h1
          · exact List.mem_cons_of_mem _ ((ih _ x).1 h1)
        · intro h
          rcases List.mem_append.1 h with h1 | h1
          · split at h1
            · simp only [List.mem_singleton] at h1
              exact h1 ▸ List.mem_cons_self _ _
            · simp at h1
          · exact List.mem_cons_of_mem _ ((ih _ x).2 h1)

theorem featLists_mem (cols : Table) :
    ∀ st : Option Str, (cols.map Prod.fst).Nodup →
      ∀ e ∈ cols,
        ((idFold st cols = some e.1 ∧ st ≠ some e.1) →
          e.1 ∉ (featLists st cols).1 ∧ e.1 ∉ (featLists st cols).2) ∧
        (¬(idFold st cols = some e.1 ∧ st ≠ some e.1) →
          (infer_semantic_type e.2 = "numeric".data →
            e.1 ∈ (featLists st cols).1 ∧ e.1 ∉ (featLists st cols).2) ∧
          ((infer_semantic_type e.2 = "categorical".data ∨
              infer_semantic_type e.2 = "boolean".data) →
            e.1 ∈ (featLists st cols).2 ∧ e.1 ∉ (featLists st cols).1) ∧
          (infer_semantic_type e.2 = "datetime".data →
            e.1 ∉ (featLists st cols).1 ∧ e.1 ∉ (featLists st cols).2)) := by
  induction cols with
  | nil => intro st _ e he; simp at he
  | cons f rest ih =>
      intro st hnd e he
      have hndr : (rest.map Prod.fst).Nodup := (List.nodup_cons.1 hnd).2
      have hfr : f.1 ∉ rest.map Prod.fst := (List.nodup_cons.1 hnd).1
      rw [featLists_cons, idFold_cons]
      by_cases hskip : kwAny (normName f.1) idKws ∧ st = none
      · -- the head claims the id role and is skipped
        rw [if_pos hskip, if_pos hskip]
        have hidf : idFold (some f.1) rest = some f.1 :=
          idFold_stable rest f.1 _ rfl
        rcases List.mem_cons.1 he with rfl | hmem
        · -- e is the skipped head
          constructor
          · intro _
            exact ⟨fun h => hfr ((featLists_subset rest (some e.1) e.1).1 h),
              fun h => hfr ((featLists_subset rest (some e.1) e.1).2 h)⟩
          · intro hno
            exact absurd ⟨hidf, by rw [hskip.2]; exact fun h => Option.noConfusion h⟩ hno
        · -- e is a later column
          have hne : f.1 ≠ e.1 := by
            intro h
            exact hfr (h ▸ List.mem_map_of_mem Prod.fst hmem)
          have hcond : ¬(idFold (some f.1) rest = some e.1 ∧
              some f.1 ≠ some e.1) := by
            intro ⟨ha, _⟩
            rw [hidf] at ha
            exact hne (Option.some_inj.1 ha)
          constructor
          · intro ⟨ha, _⟩
            rw [hidf] at ha
            exact absurd (Option.some_inj.1 ha) hne
          · intro _
            exact ((ih (some f.1) hndr e hmem).2 hcond)
      · -- the head is not skipped
        rw [if_neg hskip, if_neg hskip]
        rcases List.mem_cons.1 he with rfl | hmem
        · -- e is the head itself
          have hcond : ¬(idFold st rest = some e.1 ∧ st ≠ some e.1) := by
            intro ⟨ha, hb⟩
            rcases idFold_mem rest st e.1 ha with h1 | h1
            · exact hb h1
            · exact hfr h1
          constructor
          · intro hc
            exact absurd hc hcond
          · intro _
            have hn1 : e.1 ∉ (featLists st rest).1 :=
              fun h => hfr ((featLists_subset rest st e.1).1 h)
            have hn2 : e.1 ∉ (featLists st rest).2 :=
              fun h => hfr ((featLists_subset rest st e.1).2 h)
            refine ⟨fun hnum => ?_, fun hcat => ?_, fun hdt => ?_⟩
            · rw [if_pos hnum]
              constructor
              · exact List.mem_append.2 (Or.inl (List.mem_singleton.2 rfl))
              · rw [if_neg (by rw [hnum]; decide)]
                simpa using hn2
            · rw [if_pos hcat]
              have hnn : ¬ infer_semantic_type e.2 = "numeric".data := by
                rcases hcat with h | h <;> rw [h] <;> decide
              constructor
              · exact List.mem_append.2 (Or.inl (List.mem_singleton.2 rfl))
              · rw [if_neg hnn]
                simpa using hn1
            · have hnn : ¬ infer_semantic_type e.2 = "numeric".data := by
                rw [hdt]; decide
              have hnc : ¬(infer_semantic_type e.2 = "categorical".data ∨
                  infer_semantic_type e.2 = "boolean".data) := by
                rw [hdt]; decide
              rw [if_neg hnn, if_neg hnc]
              exact ⟨by simpa using hn1, by simpa using hn2⟩
        · -- e is a later column
          have hne : f.1 ≠ e.1 := by
            intro h
            exact hfr (h ▸ List.mem_map_of_mem Prod.fst hmem)
          have hih := ih st hndr e hmem
          have hpre : ∀ (P : Prop) (inst : Decidable P) (L : List Str),
              e.1 ∈ (if P then [f.1] else []) ++ L ↔ e.1 ∈ L := by
            intro P inst L
            constructor
            · intro h
              rcases List.mem_append.1 h with h1 | h1
              · split at h1
                · simp only [List.mem_singleton] at h1
                  exact absurd h1.symm hne
                · simp at h1
              · exact h1
            · intro h
              exact List.mem_append.2 (Or.inr h)
          constructor
          · intro hc
            obtain ⟨hn1, hn2⟩ := hih.1 hc
            exact ⟨fun h => hn1 ((hpre _ _ _).1 h),
              fun h => hn2 ((hpre _ _ _).1 h)⟩
          · intro hc
            obtain ⟨g1, g2, g3⟩ := hih.2 hc
            refine ⟨fun hnum => ?_, fun hcat => ?_, fun hdt => ?_⟩
            · obtain ⟨hm1, hm2⟩ := g1 hnum
              exact ⟨(hpre _ _ _).2 hm1, fun h => hm2 ((hpre _ _ _).1 h)⟩
            · obtain ⟨hm1, hm2⟩ := g2 hcat
              exact ⟨(hpre _ _ _).2 hm1, fun h => hm2 ((hpre _ _ _).1 h)⟩
            · obtain ⟨hm1, hm2⟩ := g3 hdt
              exact ⟨fun h => hm1 ((hpre _ _ _).1 h),
                fun h => hm2 ((hpre _ _ _).1 h)⟩

/-- C7 as amended: under distinct column names, every column other than
the one that claimed the id role lands in exactly one feature list
according to its semantic type (numeric in numeric_columns, categorical
or boolean in categorical_columns, datetime in neither), regardless of
target/date claims; the id-claiming column is skipped by the loop's
`continue` and appears in neither list. -/
theorem c7_amended (df : Table) (hnd : (df.map Prod.fst).Nodup) :
    ∀ e ∈ df,
      ((suggest_column_mapping df).id_column = some e.1 →
        e.1 ∉ (suggest_column_mapping df).numeric_columns ∧
        e.1 ∉ (suggest_column_mapping df).categorical_columns) ∧
      ((suggest_column_mapping df).id_column ≠ some e.1 →
        (infer_semantic_type e.2 = "numeric".data →
          e.1 ∈ (suggest_column_mapping df).numeric_columns ∧
          e.1 ∉ (suggest_column_mapping df).categorical_columns) ∧
        ((infer_semantic_type e.2 = "categorical".data ∨
            infer_semantic_type e.2 = "boolean".data) →
          e.1 ∈ (suggest_column_mapping df).categorical_columns ∧
          e.1 ∉ (suggest_column_mapping df).numeric_columns) ∧
        (infer_semantic_type e.2 = "datetime".data →
          e.1 ∉ (suggest_column_mapping df).numeric_columns ∧
          e.1 ∉ (suggest_column_mapping df).categorical_columns)) := by
  intro e he
  obtain ⟨hn, hc, hi⟩ := suggestLoop_spec df ({} : ColumnMapping)
  have hnum : (suggest_column_mapping df).numeric_columns =
      (featLists none df).1 := by
    unfold suggest_column_mapping
    rw [hn]
    rfl
  have hcat : (suggest_column_mapping df).categorical_columns =
      (featLists none df).2 := by
    unfold suggest_column_mapping
    rw [hc]
    rfl
  have hid : (suggest_column_mapping df).id_column = idFold none df := by
    unfold suggest_column_mapping
    rw [hi]
  have hfm := featLists_mem df none hnd e he
  constructor
  · intro hideq
    have h := hfm.1 ⟨by rw [← hid]; exact hideq,
      fun h => Option.noConfusion h⟩
    rw [hnum, hcat]
    exact h
  · intro hne
    have hcond : ¬(idFold none df = some e.1 ∧
        (none : Option Str) ≠ some e.1) := by
      intro h
      exact hne (by rw [hid]; exact h.1)
    obtain ⟨g1, g2, g3⟩ := hfm.2 hcond
    rw [hnum, hcat]
    exact ⟨g1, g2, g3⟩

/-- Witness for C7: in a frame with columns `id` and `age`, the numeric
column `age` (not claimed as id) is appended to the numeric feature list
and not to the categorical one. -/
theorem c7_amended_witness :
    "age".data ∈ (suggest_column_mapping c7wdf).numeric_columns ∧
    "age".data ∉ (suggest_column_mapping c7wdf).categorical_columns := by
  have h := (c7_amended c7wdf (by decide)
      ("age".data, { dtype := Dtype.int64, values := [.num 2] })
      (by decide)).2 (by decide)
  exact h.1 (by decide)

/-! String lemmas for the idempotence of the cleaning actions (claim C1). -/

theorem dropWhile_idem {α : Type} (p : α → Bool) (l : List α) :
    (l.dropWhile p).dropWhile p = l.dropWhile p := by
  induction l with
  | nil => rfl
  | cons a l ih =>
      by_cases h : p a
      · simp [List.dropWhile_cons, h, ih]
      · simp [List.dropWhile_cons, h]

theorem head_dropWhile_false {α : Type} (p : α → Bool) (l : List α) :
    ∀ c, (l.dropWhile p).head? = some c → p c = false := by
  induction l with
  | nil => intro c h; simp [List.dropWhile] at h
  | cons a l ih =>
      intro c h
      rw [List.dropWhile_cons] at h
      by_cases ha : p a
      · rw [if_pos ha] at h
        exact ih c h
      · rw [if_neg ha] at h
        simp only [List.head?_cons, Option.some_inj] at h
        subst h
        exact Bool.eq_false_iff.2 ha

theorem dropWhile_of_head_false {α : Type} (p : α → Bool) (l : List α)
    (h : ∀ c, l.head? = some c → p c = false) : l.dropWhile p = l := by
  cases l with
  | nil => rfl
  | cons a t =>
      rw [List.dropWhile_cons, if_neg]
      rw [h a rfl]
      simp

theorem dropWhile_eq_drop_ex {α : Type} (p : α → Bool) (l : List α) :
    ∃ n, l.dropWhile p = l.drop n := by
  induction l with
  | nil => exact ⟨0, rfl⟩
  | cons a l ih =>
      by_cases h : p a
      · rcases ih with ⟨n, hn⟩
        exact ⟨n + 1, by simp [List.dropWhile_cons, h, hn]⟩
      · exact ⟨0, by simp [List.dropWhile_cons, h]⟩

theorem head?_take_ne {α : Type} (l : List α) (n : ℕ) (h : n ≠ 0) :
    (l.take n).head? = l.head? := by
  cases l <;> cases n <;> simp_all

theorem pyStrip_head (s : Str) :
    ∀ c, (pyStrip s).head? = some c → isWs c = false := by
  intro c hc
  unfold pyStrip at hc
  obtain ⟨n, hn⟩ := dropWhile_eq_drop_ex isWs (stripLeft s).reverse
  rw [hn, List.reverse_drop, List.reverse_reverse, List.length_reverse] at hc
  rcases Nat.eq_zero_or_pos ((stripLeft s).length - n) with h0 | h0
  · rw [h0] at hc
    simp at hc
  · rw [head?_take_ne _ _ (by omega)] at hc
    exact head_dropWhile_false isWs s c hc

theorem pyStrip_reverse (s : Str) :
    (pyStrip s).reverse = (stripLeft s).reverse.dropWhile isWs := by
  unfold pyStrip
  rw [List.reverse_reverse]

theorem pyStrip_idem (s : Str) : pyStrip (pyStrip s) = pyStrip s := by
  have h1 : stripLeft (pyStrip s) = pyStrip s :=
    dropWhile_of_head_false isWs _ (pyStrip_head s)
  show ((stripLeft (pyStrip s)).reverse.dropWhile isWs).reverse = pyStrip s
  rw [h1, pyStrip_reverse, dropWhile_idem, ← pyStrip_reverse,
    List.reverse_reverse]

theorem lowerChar_eq_self (c : Char)
    (h : c ∉ ['A', 'B', 'C', 'D', 'E', 'F', 'G', 'H', 'I', 'J', 'K', 'L',
      'M', 'N', 'O', 'P', 'Q', 'R', 'S', 'T', 'U', 'V', 'W', 'X', 'Y', 'Z']) :
    lowerChar c = c := by
  unfold lowerChar
  split <;> simp_all

theorem upperChar_eq_self (c : Char)
    (h : c ∉ ['a', 'b', 'c', 'd', 'e', 'f', 'g', 'h', 'i', 'j', 'k', 'l',
      'm', 'n', 'o', 'p', 'q', 'r', 's', 't', 'u', 'v', 'w', 'x', 'y', 'z']) :
    upperChar c = c := by
  unfold upperChar
  split <;> simp_all

theorem lowerChar_lowerChar (c : Char) :
    lowerChar (lowerChar c) = lowerChar c := by
  by_cases h : c ∈ ['A', 'B', 'C', 'D', 'E', 'F', 'G', 'H', 'I', 'J', 'K',
    'L', 'M', 'N', 'O', 'P', 'Q', 'R', 'S', 'T', 'U', 'V', 'W', 'X', 'Y', 'Z']
  · fin_cases h <;> decide
  · rw [lowerChar_eq_self c h, lowerChar_eq_self c h]

theorem upperChar_upperChar (c : Char) :
    upperChar (upperChar c) = upperChar c := by
  by_cases h : c ∈ ['a', 'b', 'c', 'd', 'e', 'f', 'g', 'h', 'i', 'j', 'k',
    'l', 'm', 'n', 'o', 'p', 'q', 'r', 's', 't', 'u', 'v', 'w', 'x', 'y', 'z']
  · fin_cases h <;> decide
  · rw [upperChar_eq_self c h, upperChar_eq_self c h]

theorem lowerChar_isAlpha (c : Char) : (lowerChar c).isAlpha = c.isAlpha := by
  by_cases h : c ∈ ['A', 'B', 'C', 'D', 'E', 'F', 'G', 'H', 'I', 'J', 'K',
    'L', 'M', 'N', 'O', 'P', 'Q', 'R', 'S', 'T', 'U', 'V', 'W', 'X', 'Y', 'Z']
  · fin_cases h <;> decide
  · rw [lowerChar_eq_self c h]

theorem upperChar_isAlpha (c : Char) : (upperChar c).isAlpha = c.isAlpha := by
  by_cases h : c ∈ ['a', 'b', 'c', 'd', 'e', 'f', 'g', 'h', 'i', 'j', 'k',
    'l', 'm', 'n', 'o', 'p', 'q', 'r', 's', 't', 'u', 'v', 'w', 'x', 'y', 'z']
  · fin_cases h <;> decide
  · rw [upperChar_eq_self c h]

theorem lowerChar_isWs (c : Char) : isWs (lowerChar c) = isWs c := by
  by_cases h : c ∈ ['A', 'B', 'C', 'D', 'E', 'F', 'G', 'H', 'I', 'J', 'K',
    'L', 'M', 'N', 'O', 'P', 'Q', 'R', 'S', 'T', 'U', 'V', 'W', 'X', 'Y', 'Z']
  · fin_cases h <;> decide
  · rw [lowerChar_eq_self c h]

theorem upperChar_isWs (c : Char) : isWs (upperChar c) = isWs c := by
  by_cases h : c ∈ ['a', 'b', 'c', 'd', 'e', 'f', 'g', 'h', 'i', 'j', 'k',
    'l', 'm', 'n', 'o', 'p', 'q', 'r', 's', 't', 'u', 'v', 'w', 'x', 'y', 'z']
  · fin_cases h <;> decide
  · rw [upperChar_eq_self c h]

theorem pyTitleAux_map_isWs (t : Str) :
    ∀ b, (pyTitleAux b t).map isWs = t.map isWs := by
  induction t with
  | nil => intro b; rfl
  | cons c cs ih =>
      intro b
      by_cases hc : c.isAlpha <;> by_cases hb : b <;>
        simp [pyTitleAux, hc, hb, lowerChar_isWs, upperChar_isWs, ih]

theorem pyTitleAux_idem (t : Str) :
    ∀ b, pyTitleAux b (pyTitleAux b t) = pyTitleAux b t := by
  induction t with
  | nil => intro b; rfl
  | cons c cs ih =>
      intro b
      by_cases hc : c.isAlpha
      · by_cases hb : b
        · simp [pyTitleAux, hc, hb, lowerChar_isAlpha, lowerChar_lowerChar, ih]
        · simp [pyTitleAux, hc, hb, upperChar_isAlpha, upperChar_upperChar, ih]
      · simp [pyTitleAux, hc, ih]

theorem pyTitle_idem (t : Str) : pyTitle (pyTitle t) = pyTitle t :=
  pyTitleAux_idem t false

theorem dropWhile_self_congr {α β : Type} (p : α → Bool) (q : β → Bool)
    (l : List α) (m : List β) (hmap : l.map p = m.map q)
    (hl : l.dropWhile p = l) : m.dropWhile q = m := by
  cases m with
  | nil => rfl
  | cons c cs =>
      cases l with
      | nil => simp at hmap
      | cons a as =>
          simp only [List.map_cons, List.cons.injEq] at hmap
          have ha : p a = false := by
            rw [List.dropWhile_cons] at hl
            by_cases h : p a
            · rw [if_pos h] at hl
              obtain ⟨n, hN⟩ := dropWhile_eq_drop_ex p as
              rw [hN] at hl
              have := congrArg List.length hl
              simp [List.length_drop] at this
              omega
            · exact Bool.eq_false_iff.2 h
          rw [List.dropWhile_cons, if_neg]
          rw [← hmap.1, ha]
          simp

theorem pyStrip_eq_self_intro (x : Str) (h1 : x.dropWhile isWs = x)
    (h2 : x.reverse.dropWhile isWs = x.reverse) : pyStrip x = x := by
  show ((stripLeft x).reverse.dropWhile isWs).reverse = x
  unfold stripLeft
  rw [h1, h2, List.reverse_reverse]

theorem pyStrip_left_self (x : Str) (h : pyStrip x = x) :
    x.dropWhile isWs = x := by
  apply dropWhile_of_head_false
  intro c hc
  apply pyStrip_head x
  rw [h]
  exact hc

theorem pyStrip_right_self (x : Str) (h : pyStrip x = x) :
    x.reverse.dropWhile isWs = x.reverse := by
  have h2 : x.reverse = (stripLeft x).reverse.dropWhile isWs := by
    conv_lhs => rw [← h]
    exact pyStrip_reverse x
  rw [h2]
  exact dropWhile_idem _ _

theorem pyStrip_pyTitle (t : Str) (h : pyStrip t = t) :
    pyStrip (pyTitle t) = pyTitle t := by
  apply pyStrip_eq_self_intro
  · exact dropWhile_self_congr isWs isWs t (pyTitle t)
      (pyTitleAux_map_isWs t false).symm (pyStrip_left_self t h)
  · apply dropWhile_self_congr isWs isWs t.reverse (pyTitle t).reverse
    · rw [List.map_reverse, List.map_reverse, pyTitle, pyTitleAux_map_isWs]
    · exact pyStrip_right_self t h

theorem titleStrip_idem (s : Str) :
    pyTitle (pyStrip (pyTitle (pyStrip s))) = pyTitle (pyStrip s) := by
  rw [pyStrip_pyTitle (pyStrip s) (pyStrip_idem s), pyTitle_idem]

/-! Table lemmas for the idempotence of the cleaning actions (claim C1). -/

theorem setCol_setCol (df : Table) (c : Str) (x y : Column) :
    setCol (setCol df c x) c y = setCol df c y := by
  induction df with
  | nil => rfl
  | cons e rest ih =>
      unfold setCol at ih ⊢
      simp only [List.map_cons, List.cons.injEq]
      refine ⟨?_, ih⟩
      by_cases hc : e.1 = c <;> simp [hc]

theorem getCol_dropCol (df : Table) (c : Str) :
    getCol (dropCol df c) c = none := by
  induction df with
  | nil => rfl
  | cons e rest ih =>
      unfold getCol dropCol at ih ⊢
      by_cases hc : e.1 = c <;> simp [hc, List.find?_cons, ih]

theorem getD_map_of_lt {α β : Type} (f : α → β) (l : List α) (i : ℕ)
    (d : β) (d' : α) (h : i < l.length) :
    (l.map f).getD i d = f (l.getD i d') := by
  rw [List.getD_eq_getElem?_getD, List.getElem?_map,
    List.getD_eq_getElem?_getD, List.getElem?_eq_getElem h]
  rfl

theorem map_getD_range {α : Type} (l : List α) (d : α) :
    (List.range l.length).map (fun i => l.getD i d) = l := by
  induction l with
  | nil => rfl
  | cons a t ih =>
      rw [List.length_cons, List.range_succ_eq_map]
      simp only [List.map_cons, List.getD_cons_zero, List.map_map]
      have h2 : ((fun i => (a :: t).getD i d) ∘ Nat.succ) =
          fun i => t.getD i d := by
        funext i
        simp [Function.comp, List.getD_cons_succ]
      rw [h2, ih]

theorem mem_dedupRowIdx (df : Table) (i : ℕ) (h : i ∈ dedupRowIdx df) :
    i < nRows df ∧ ∀ j < i, rowAt df j ≠ rowAt df i := by
  unfold dedupRowIdx at h
  rcases List.mem_filter.1 h with ⟨h1, h2⟩
  refine ⟨List.mem_range.1 h1, ?_⟩
  intro j hj
  have := List.all_eq_true.1 h2 j (List.mem_range.2 hj)
  simpa using this

theorem dedupRowIdx_sorted (df : Table) :
    (dedupRowIdx df).Pairwise (· < ·) := by
  unfold dedupRowIdx
  exact (List.pairwise_lt_range _).filter _

theorem nRows_selectRows (e : Str × Column) (rest : Table) (keep : List ℕ) :
    nRows (selectRows (e :: rest) keep) = keep.length := by
  simp [selectRows, nRows]

theorem rowAt_selectRows (df : Table) (keep : List ℕ) (i : ℕ)
    (h : i < keep.length) :
    rowAt (selectRows df keep) i = rowAt df (keep.getD i 0) := by
  unfold rowAt selectRows
  rw [List.map_map]
  apply List.map_congr_left
  intro e _
  simp only [Function.comp]
  exact getD_map_of_lt _ keep i Value.null 0 h

theorem dedupRowIdx_selectRows (df : Table) :
    dedupRowIdx (dropDuplicates df) = List.range (nRows (dropDuplicates df)) := by
  unfold dedupRowIdx
  apply List.filter_eq_self.2
  intro i hi
  have hin : i < nRows (dropDuplicates df) := List.mem_range.1 hi
  apply List.all_eq_true.2
  intro j hj
  have hjn : j < i := List.mem_range.1 hj
  simp only [decide_eq_true_eq]
  cases df with
  | nil => simp [dropDuplicates, selectRows, nRows] at hin
  | cons e rest =>
      have hlen : nRows (dropDuplicates (e :: rest)) =
          (dedupRowIdx (e :: rest)).length := nRows_selectRows e rest _
      rw [hlen] at hin
      have hjK : j < (dedupRowIdx (e :: rest)).length := by omega
      rw [dropDuplicates, rowAt_selectRows _ _ i hin,
        rowAt_selectRows _ _ j hjK]
      have hKi : (dedupRowIdx (e :: rest)).getD i 0 ∈ dedupRowIdx (e :: rest) := by
        rw [List.getD_eq_getElem?_getD, List.getElem?_eq_getElem hin]
        exact List.getElem_mem hin
      have hmono : (dedupRowIdx (e :: rest)).getD j 0 <
          (dedupRowIdx (e :: rest)).getD i 0 := by
        have hp := dedupRowIdx_sorted (e :: rest)
        have := List.pairwise_iff_getElem.1 hp j i hjK hin hjn
        rw [List.getD_eq_getElem?_getD, List.getElem?_eq_getElem hjK,
          List.getD_eq_getElem?_getD, List.getElem?_eq_getElem hin]
        simpa using this
      obtain ⟨-, hnd⟩ := mem_dedupRowIdx (e :: rest) _ hKi
      exact hnd _ hmono

theorem selectRows_range (df : Table) (keep : List ℕ) :
    selectRows (selectRows df keep) (List.range keep.length) =
      selectRows df keep := by
  unfold selectRows
  rw [List.map_map]
  apply List.map_congr_left
  intro e _
  simp only [Function.comp, Prod.mk.injEq, Column.mk.injEq]
  refine ⟨trivial, trivial, ?_⟩
  have hlen : (keep.map (fun i => e.2.values.getD i Value.null)).length =
      keep.length := List.length_map _ _
  conv_lhs => rw [← hlen]
  exact map_getD_range _ Value.null

theorem dropDuplicates_idem (df : Table) :
    dropDuplicates (dropDuplicates df) = dropDuplicates df := by
  cases hdf : df with
  | nil => rfl
  | cons e rest =>
      show selectRows (dropDuplicates (e :: rest))
        (dedupRowIdx (dropDuplicates (e :: rest))) = dropDuplicates (e :: rest)
      rw [dedupRowIdx_selectRows]
      have hlen : nRows (dropDuplicates (e :: rest)) =
          (dedupRowIdx (e :: rest)).length := nRows_selectRows e rest _
      rw [hlen]
      exact selectRows_range (e :: rest) (dedupRowIdx (e :: rest))

/-! Value and imputation lemmas for claim C1. -/

theorem coerceValue_idem (v : Value) :
    coerceValue (coerceValue v) = coerceValue v := by
  unfold coerceValue
  cases h : toNumOpt v <;> simp [toNumOpt]

theorem dedupGo_subset {α : Type} [DecidableEq α] :
    ∀ (fuel : ℕ) (l : List α) (x : α), x ∈ dedupGo fuel l → x ∈ l := by
  intro fuel
  induction fuel with
  | zero => intro l x h; simp [dedupGo] at h
  | succ f ih =>
      intro l x h
      cases l with
      | nil => simp [dedupGo] at h
      | cons a t =>
          rw [dedupGo] at h
          rcases List.mem_cons.1 h with rfl | h1
          · exact List.mem_cons_self _ _
          · exact List.mem_cons_of_mem _ (List.mem_filter.1 (ih _ x h1)).1

theorem mem_dedupKeepFirst {α : Type} [DecidableEq α] (l : List α) (x : α)
    (h : x ∈ dedupKeepFirst l) : x ∈ l :=
  dedupGo_subset l.length l x h

theorem foldl_pick_mem (bs : List Value) :
    ∀ b, (bs.foldl (fun acc v => if valueLe v acc then v else acc) b) ∈
      b :: bs := by
  induction bs with
  | nil => intro b; exact List.mem_cons_self b []
  | cons v vs ih =>
      intro b
      rw [List.foldl_cons]
      rcases List.mem_cons.1 (ih (if valueLe v b then v else b)) with h | h
      · rw [h]
        by_cases hc : valueLe v b <;> simp [hc]
      · exact List.mem_cons_of_mem _ (List.mem_cons_of_mem _ h)

theorem nullCount_zero_iff (col : Column) :
    nullCount col = 0 ↔ ∀ v ∈ col.values, v ≠ Value.null := by
  unfold nullCount
  rw [List.length_eq_zero, List.filter_eq_nil_iff]
  constructor
  · intro h v hv
    have := h v hv
    simpa using this
  · intro h v hv
    simp [h v hv]

theorem nullCount_fillList (d : Dtype) (vs : List Value) (fill : Value)
    (hf : fill ≠ Value.null) :
    nullCount { dtype := d, values := fillList vs fill } = 0 := by
  rw [nullCount_zero_iff]
  intro v hv
  rcases List.mem_map.1 hv with ⟨w, _, rfl⟩
  by_cases hw : w = Value.null <;> simp [hw, hf]

theorem getCol_selectRows (df : Table) (keep : List ℕ) (c : Str) :
    getCol (selectRows df keep) c = (getCol df c).map
      (fun col => Column.mk col.dtype
        (keep.map (fun i => col.values.getD i Value.null))) := by
  induction df with
  | nil => rfl
  | cons e rest ih =>
      unfold getCol selectRows at ih ⊢
      by_cases hc : e.1 = c <;> simp [List.find?_cons, hc] <;> simp at ih <;>
        exact ih

/-! Action-level idempotence lemmas for claim C1. -/

theorem applyAction_fix (df : Table) (a : CleaningAction)
    (h : (applyAction df a).1 = df) :
    (applyAction (applyAction df a).1 a).1 = (applyAction df a).1 := by
  rw [h]
  exact h

theorem applyAction_dedup_idem (df : Table) (a : CleaningAction)
    (ha : a.act = "remove_duplicates".data) :
    (applyAction (applyAction df a).1 a).1 = (applyAction df a).1 := by
  simp only [applyAction, ha, if_pos]
  exact dropDuplicates_idem df

theorem applyAction_strip_idem (df : Table) (a : CleaningAction) (c : Str)
    (col : Column) (ha : a.act = "strip_whitespace".data)
    (hcopt : a.column = some c) (hgc : getCol df c = some col) :
    (applyAction (applyAction df a).1 a).1 = (applyAction df a).1 := by
  by_cases hd : col.dtype = .object
  · have h1 : (applyAction df a).1 = setCol df c
        { dtype := .object,
          values := col.values.map (fun v => .vstr (pyStrip (toStrV v))) } := by
      simp only [applyAction, ha, hcopt, hgc]
      rw [if_neg (by decide), if_pos (by decide), if_pos hd]
    rw [h1]
    have hg1 := getCol_setCol df c col
      { dtype := .object,
        values := col.values.map (fun v => .vstr (pyStrip (toStrV v))) } hgc
    have hvals : (col.values.map (fun v => Value.vstr (pyStrip (toStrV v)))).map
        (fun v => Value.vstr (pyStrip (toStrV v))) =
        col.values.map (fun v => Value.vstr (pyStrip (toStrV v))) := by
      rw [List.map_map]
      apply List.map_congr_left
      intro v _
      simp only [Function.comp, toStrV, pyStrip_idem]
    simp [applyAction, ha, hcopt, hg1, hvals, setCol_setCol]
  · apply applyAction_fix
    simp only [applyAction, ha, hcopt, hgc]
    rw [if_neg (by decide), if_pos (by decide), if_neg hd]

theorem applyAction_case_idem (df : Table) (a : CleaningAction) (c : Str)
    (col : Column) (ha : a.act = "standardize_case".data)
    (hcopt : a.column = some c) (hgc : getCol df c = some col) :
    (applyAction (applyAction df a).1 a).1 = (applyAction df a).1 := by
  by_cases hd : col.dtype = .object
  · have h1 : (applyAction df a).1 = setCol df c
        { dtype := .object,
          values := col.values.map
            (fun v => .vstr (pyTitle (pyStrip (toStrV v)))) } := by
      simp only [applyAction, ha, hcopt, hgc]
      rw [if_neg (by decide), if_neg (by decide), if_pos (by decide),
        if_pos hd]
    rw [h1]
    have hg1 := getCol_setCol df c col
      { dtype := .object,
        values := col.values.map
          (fun v => .vstr (pyTitle (pyStrip (toStrV v)))) } hgc
    have hvals : (col.values.map
        (fun v => Value.vstr (pyTitle (pyStrip (toStrV v))))).map
        (fun v => Value.vstr (pyTitle (pyStrip (toStrV v)))) =
        col.values.map (fun v => Value.vstr (pyTitle (pyStrip (toStrV v)))) := by
      rw [List.map_map]
      apply List.map_congr_left
      intro v _
      simp only [Function.comp, toStrV, titleStrip_idem]
    simp [applyAction, ha, hcopt, hg1, hvals, setCol_setCol]
  · apply applyAction_fix
    simp only [applyAction, ha, hcopt, hgc]
    rw [if_neg (by decide), if_neg (by decide), if_pos (by decide), if_neg hd]

theorem applyAction_convert_idem (df : Table) (a : CleaningAction) (c : Str)
    (col : Column) (ha : a.act = "convert_numeric".data)
    (hcopt : a.column = some c) (hgc : getCol df c = some col) :
    (applyAction (applyAction df a).1 a).1 = (applyAction df a).1 := by
  have h1 : (applyAction df a).1 = setCol df c
      { dtype := .float64, values := col.values.map coerceValue } := by
    simp only [applyAction, ha, hcopt, hgc]
    rw [if_neg (by decide), if_neg (by decide), if_neg (by decide),
      if_neg (by decide), if_neg (by decide), if_neg (by decide),
      if_pos (by decide)]
  rw [h1]
  have hg1 := getCol_setCol df c col
    { dtype := .float64, values := col.values.map coerceValue } hgc
  simp only [applyAction, ha, hcopt, hg1]
  rw [if_neg (by decide), if_neg (by decide), if_neg (by decide),
    if_neg (by decide), if_neg (by decide), if_neg (by decide),
    if_pos (by decide)]
  have hvals : (col.values.map coerceValue).map coerceValue =
      col.values.map coerceValue := by
    rw [List.map_map]
    apply List.map_congr_left
    intro v _
    exact coerceValue_idem v
  rw [hvals, setCol_setCol]

theorem applyAction_dropcol_idem (df : Table) (a : CleaningAction) (c : Str)
    (col : Column) (ha : a.act = "drop_column".data)
    (hcopt : a.column = some c) (hgc : getCol df c = some col) :
    (applyAction (applyAction df a).1 a).1 = (applyAction df a).1 := by
  have h1 : (applyAction df a).1 = dropCol df c := by
    simp only [applyAction, ha, hcopt, hgc]
    rw [if_neg (by decide), if_neg (by decide), if_neg (by decide),
      if_neg (by decide), if_neg (by decide), if_pos (by decide)]
  rw [h1]
  simp only [applyAction, ha, hcopt, getCol_dropCol]
  rw [if_neg (by decide)]

theorem fillList_null (vs : List Value) : fillList vs Value.null = vs := by
  unfold fillList
  conv_rhs => rw [← List.map_id vs]
  apply List.map_congr_left
  intro v _
  by_cases h : v = Value.null <;> simp [h]

theorem pickFirstMode_ne_null (l : List Value)
    (hl : ∀ v ∈ l, v ≠ Value.null) : pickFirstMode l ≠ Value.null := by
  cases l with
  | nil => exact fun h => Value.noConfusion h
  | cons b bs => exact hl _ (foldl_pick_mem bs b)

theorem imputeMissing_nonull (df : Table) (c : Str) (col : Column)
    (method : Str) (h : nullCount col = 0) :
    (imputeMissing df c col method).1 = df := by
  unfold imputeMissing
  dsimp only
  rw [if_pos h]

theorem imputeMissing_allnull (df : Table) (c : Str) (n : ℕ) (method : Str)
    (hmed : method = "median".data ∨ method = "mean".data) :
    (imputeMissing df c (Column.mk .float64 (List.replicate n Value.null))
      method).1 = df ∨
    (imputeMissing df c (Column.mk .float64 (List.replicate n Value.null))
      method).1 =
      setCol df c (Column.mk .float64 (List.replicate n Value.null)) := by
  unfold imputeMissing
  dsimp only
  by_cases h0 : nullCount (Column.mk .float64 (List.replicate n Value.null)) = 0
  · rw [if_pos h0]
    exact Or.inl rfl
  · rw [if_neg h0, if_pos hmed]
    right
    have hp : parseables (Column.mk .float64 (List.replicate n Value.null)) =
        [] := by
      unfold parseables
      dsimp only
      refine List.filterMap_eq_nil_iff.2 ?_
      intro a ha
      rw [List.eq_of_mem_replicate ha]
      rfl
    rw [hp]
    have hq : (if method = "median".data then medianQ [] else meanQ []) =
        none := by
      by_cases hm : method = "median".data
      · rw [if_pos hm]
        exact (medianQ_none_iff _).2 rfl
      · rw [if_neg hm]
        exact (meanQ_none_iff _).2 rfl
    rw [hq]
    dsimp only
    rw [List.map_replicate]
    rw [show coerceValue Value.null = Value.null from rfl]
    rw [fillList_null]

theorem imputeMissing_shape (df : Table) (c : Str) (col : Column)
    (method : Str) (hgc : getCol df c = some col) :
    (imputeMissing df c col method).1 = df
    ∨ (∃ ncol : Column, nullCount ncol = 0 ∧
        getCol (imputeMissing df c col method).1 c = some ncol)
    ∨ ((method = "median".data ∨ method = "mean".data) ∧
        getCol (imputeMissing df c col method).1 c =
          some (Column.mk .float64
            (List.replicate col.values.length Value.null)) ∧
        (imputeMissing df c col method).1 = setCol df c
          (Column.mk .float64
            (List.replicate col.values.length Value.null))) := by
  unfold imputeMissing
  dsimp only
  by_cases h0 : nullCount col = 0
  · rw [if_pos h0]
    exact Or.inl rfl
  · rw [if_neg h0]
    by_cases hmed : method = "median".data ∨ method = "mean".data
    · rw [if_pos hmed]
      rcases hq : (if method = "median".data then medianQ (parseables col)
          else meanQ (parseables col)) with _ | m
      · right; right
        have hnil : parseables col = [] := by
          by_cases hm : method = "median".data
          · rw [if_pos hm] at hq
            exact (medianQ_none_iff _).1 hq
          · rw [if_neg hm] at hq
            exact (meanQ_none_iff _).1 hq
        have hall : ∀ v ∈ col.values, toNumOpt v = none := by
          intro v hv
          exact List.filterMap_eq_nil_iff.1 hnil v hv
        have hrep : col.values.map coerceValue =
            List.replicate col.values.length Value.null := by
          refine List.eq_replicate_iff.2 ⟨by simp, ?_⟩
          intro b hb
          rcases List.mem_map.1 hb with ⟨v, hv, rfl⟩
          unfold coerceValue
          rw [hall v hv]
        dsimp only
        rw [fillList_null, hrep]
        exact ⟨hmed, getCol_setCol df c col _ hgc, rfl⟩
      · right; left
        dsimp only
        refine ⟨_, ?_, getCol_setCol df c col _ hgc⟩
        exact nullCount_fillList _ _ _ (fun h => Value.noConfusion h)
    · rw [if_neg hmed]
      by_cases hmode : method = "mode".data
      · rw [if_pos hmode]
        right; left
        dsimp only
        refine ⟨_, ?_, getCol_setCol df c col _ hgc⟩
        refine nullCount_fillList _ _ _ (pickFirstMode_ne_null _ ?_)
        intro v hv
        have h1 := List.mem_filter.1 hv
        have h2 := mem_dedupKeepFirst _ _ h1.1
        have h3 := List.mem_filter.1 h2
        simpa using h3.2
      · rw [if_neg hmode]
        by_cases hdrop : method = "drop".data
        · rw [if_pos hdrop]
          right; left
          dsimp only
          rw [getCol_selectRows, hgc]
          refine ⟨_, ?_, rfl⟩
          rw [nullCount_zero_iff]
          intro v hv
          dsimp only at hv
          rcases List.mem_map.1 hv with ⟨i, hi, rfl⟩
          have h2 := (List.mem_filter.1 hi).2
          simpa using h2
        · rw [if_neg hdrop]
          right; left
          dsimp only
          refine ⟨_, ?_, getCol_setCol df c col _ hgc⟩
          exact nullCount_fillList _ _ _ (fun h => Value.noConfusion h)

theorem applyAction_impute_idem (df : Table) (a : CleaningAction) (c : Str)
    (col : Column) (ha : a.act = "impute_missing".data)
    (hcopt : a.column = some c) (hgc : getCol df c = some col) :
    (applyAction (applyAction df a).1 a).1 = (applyAction df a).1 := by
  have happ : ∀ (df2 : Table) (col2 : Column), getCol df2 c = some col2 →
      (applyAction df2 a).1 = (imputeMissing df2 c col2 a.methodStr).1 := by
    intro df2 col2 hg
    simp [applyAction, ha, hcopt, hg]
  rw [happ df col hgc]
  rcases imputeMissing_shape df c col a.methodStr hgc with hid |
    ⟨ncol, hnc, hg1⟩ | ⟨hmed, hg1, heq⟩
  · rw [hid, happ df col hgc, hid]
  · rw [happ _ _ hg1, imputeMissing_nonull _ _ _ _ hnc]
  · rw [happ _ _ hg1]
    rcases imputeMissing_allnull (imputeMissing df c col a.methodStr).1 c
      col.values.length a.methodStr hmed with h2 | h2
    · rw [h2]
    · rw [h2, heq, setCol_setCol]

theorem applyAction_unknown_fix (df : Table) (a : CleaningAction) (c : Str)
    (col : Column)
    (h1 : a.act ≠ "remove_duplicates".data)
    (h2 : a.act ≠ "strip_whitespace".data)
    (h3 : a.act ≠ "standardize_case".data)
    (h4 : a.act ≠ "impute_missing".data)
    (h5 : a.act ≠ "clip_outliers".data)
    (h6 : a.act ≠ "drop_column".data)
    (h7 : a.act ≠ "convert_numeric".data)
    (hcopt : a.column = some c) (hgc : getCol df c = some col) :
    (applyAction df a).1 = df := by
  simp only [applyAction, hcopt, hgc]
  rw [if_neg h1, if_neg h2, if_neg h3, if_neg h4, if_neg h5, if_neg h6,
    if_neg h7]

/-- C1 (amended): applying a single cleaning action to its own output is a
no-op for every action type other than `clip_outliers`; the spec's blanket
idempotence claim fails only on the clipping branch, which recomputes the
quartiles from the already-clipped data. -/
theorem c1_amended (df : Table) (a : CleaningAction)
    (h : a.act ≠ "clip_outliers".data) :
    (apply_cleaning_actions (apply_cleaning_actions df [a]).1 [a]).1 =
      (apply_cleaning_actions df [a]).1 := by
  have hred : ∀ d : Table, (apply_cleaning_actions d [a]).1 =
      (applyAction d a).1 := by
    intro d
    rfl
  simp only [hred]
  by_cases h1 : a.act = "remove_duplicates".data
  · exact applyAction_dedup_idem df a h1
  · cases hcopt : a.column with
    | none =>
        apply applyAction_fix
        simp only [applyAction, hcopt]
        rw [if_neg h1]
    | some c =>
        cases hgc : getCol df c with
        | none =>
            apply applyAction_fix
            simp only [applyAction, hcopt, hgc]
            rw [if_neg h1]
        | some col =>
            by_cases h2 : a.act = "strip_whitespace".data
            · exact applyAction_strip_idem df a c col h2 hcopt hgc
            · by_cases h3 : a.act = "standardize_case".data
              · exact applyAction_case_idem df a c col h3 hcopt hgc
              · by_cases h4 : a.act = "impute_missing".data
                · exact applyAction_impute_idem df a c col h4 hcopt hgc
                · by_cases h6 : a.act = "drop_column".data
                  · exact applyAction_dropcol_idem df a c col h6 hcopt hgc
                  · by_cases h7 : a.act = "convert_numeric".data
                    · exact applyAction_convert_idem df a c col h7 hcopt hgc
                    · apply applyAction_fix
                      exact applyAction_unknown_fix df a c col h1 h2 h3 h4 h
                        h6 h7 hcopt hgc

/-- Witness for C1 (amended): re-running a `strip_whitespace` action on its
own output leaves the cleaned table unchanged. -/
theorem c1_amended_witness :
    c1stripAct.act ≠ "clip_outliers".data ∧
    (apply_cleaning_actions (apply_cleaning_actions c1stripDf [c1stripAct]).1
      [c1stripAct]).1 = (apply_cleaning_actions c1stripDf [c1stripAct]).1 :=
  ⟨by decide, c1_amended c1stripDf c1stripAct (by decide)⟩

end AIB
